import Mathlib

/-!
# Verification of `Scripts/prepare_ground_truth_dataset.py`

A shallow embedding of the core of the Rangefinder ground-truth dataset
preparation script: the distance-band table, the robust depth statistics
(`sample_center_patch`, `compute_percentiles`), the quota-gated admission
protocol shared by the two real-data adapters (`process_arkitscenes`,
`process_diode`), the synthetic generator (`generate_synthetic_manifest`)
and the synthetic backfill loop of `main`.

Modelling conventions:
* Python floats are modelled as exact rationals (`ℚ`); a non-finite float
  (NaN/±inf) is modelled as the pixel value `none`.
* Python's `round(x, 4)` is modelled as exact round-half-to-even on the
  rational value, scaled by `10 ^ 4`.
* The pseudo-random number generators (`random.Random(seed)`,
  `numpy.random.RandomState(seed)`) are library code; they are modelled as
  abstract deterministic streams of rational draws (`Rng`), with
  `random.random()`-style draws in `[0, 1)` obtained by taking the
  fractional part of a raw stream value.
* File-system traversal, PNG/NPY decoding and JSON serialisation are I/O
  glue outside the embedded core; an adapter "candidate frame" enters the
  embedding as an already-decoded depth map in meters.
-/

namespace Rangefinder

/-- The six distance bands: the keys of `DISTANCE_BANDS`, in the source's
(insertion) order. -/
inductive Band : Type
  | close
  | near_mid
  | mid
  | far_mid
  | far
  | long
deriving DecidableEq, Repr

/-- Low edge of a band in meters (first component of `DISTANCE_BANDS[band]`). -/
def bandLo : Band → ℚ
  | .close => 1/2
  | .near_mid => 3
  | .mid => 8
  | .far_mid => 15
  | .far => 50
  | .long => 150

/-- High edge of a band in meters (second component of `DISTANCE_BANDS[band]`). -/
def bandHi : Band → ℚ
  | .close => 3
  | .near_mid => 8
  | .mid => 15
  | .far_mid => 50
  | .far => 150
  | .long => 350

/-- `DISTANCE_BANDS`: the band table in the dict's insertion order
(`close, near_mid, mid, far_mid, far, long`). -/
def DISTANCE_BANDS : List Band :=
  [.close, .near_mid, .mid, .far_mid, .far, .long]

/-- `BAND_TARGETS`: the per-band quota targets. -/
def BAND_TARGETS : Band → ℕ
  | .close => 2000
  | .near_mid => 2000
  | .mid => 1500
  | .far_mid => 1500
  | .far => 1500
  | .long => 1500

/-- `classify_distance`: iterate over `DISTANCE_BANDS` and return the first
band whose half-open interval `[lo, hi)` contains the distance, else `None`. -/
def classify_distance (distance_m : ℚ) : Option Band :=
  DISTANCE_BANDS.find? fun b =>
    decide (bandLo b ≤ distance_m) && decide (distance_m < bandHi b)

/-- Closed form of `classify_distance` as a decision ladder. -/
theorem classify_distance_eq (d : ℚ) :
    classify_distance d =
      if d < 1/2 then none
      else if d < 3 then some .close
      else if d < 8 then some .near_mid
      else if d < 15 then some .mid
      else if d < 50 then some .far_mid
      else if d < 150 then some .far
      else if d < 350 then some .long
      else none := by
  simp only [classify_distance, DISTANCE_BANDS]
  rcases lt_or_le d (1/2 : ℚ) with h0 | h0
  all_goals first
    | (replace h0 : d < (2:ℚ)⁻¹ := by linarith)
    | (replace h0 : (2:ℚ)⁻¹ ≤ d := by linarith)
  case inl =>
    have n3 : ¬ (3:ℚ) ≤ d := by linarith
    have n8 : ¬ (8:ℚ) ≤ d := by linarith
    have n15 : ¬ (15:ℚ) ≤ d := by linarith
    have n50 : ¬ (50:ℚ) ≤ d := by linarith
    have n150 : ¬ (150:ℚ) ≤ d := by linarith
    simp [List.find?, bandLo, bandHi, not_le.mpr h0, n3, n8, n15, n50, n150, h0]
  case inr =>
    rcases lt_or_le d (3 : ℚ) with h1 | h1
    · simp [List.find?, bandLo, bandHi, h0, h1]
    · rcases lt_or_le d (8 : ℚ) with h2 | h2
      · simp [List.find?, bandLo, bandHi, h0, h1, h2, not_lt.mpr h0, not_lt.mpr h1]
      · rcases lt_or_le d (15 : ℚ) with h3 | h3
        · simp [List.find?, bandLo, bandHi, h0, h1, h2, h3,
            not_lt.mpr h0, not_lt.mpr h1, not_lt.mpr h2]
        · rcases lt_or_le d (50 : ℚ) with h4 | h4
          · simp [List.find?, bandLo, bandHi, h0, h1, h2, h3, h4,
              not_lt.mpr h0, not_lt.mpr h1, not_lt.mpr h2, not_lt.mpr h3]
          · rcases lt_or_le d (150 : ℚ) with h5 | h5
            · simp [List.find?, bandLo, bandHi, h0, h1, h2, h3, h4, h5,
                not_lt.mpr h0, not_lt.mpr h1, not_lt.mpr h2, not_lt.mpr h3,
                not_lt.mpr h4]
            · rcases lt_or_le d (350 : ℚ) with h6 | h6
              · simp [List.find?, bandLo, bandHi, h0, h1, h2, h3, h4, h5, h6,
                  not_lt.mpr h0, not_lt.mpr h1, not_lt.mpr h2, not_lt.mpr h3,
                  not_lt.mpr h4, not_lt.mpr h5]
              · simp [List.find?, bandLo, bandHi, h0, h1, h2, h3, h4, h5,
                  not_lt.mpr h0, not_lt.mpr h1, not_lt.mpr h2, not_lt.mpr h3,
                  not_lt.mpr h4, not_lt.mpr h5, not_lt.mpr h6]

theorem classify_mem_range {d : ℚ} {b : Band} (h : classify_distance d = some b) :
    bandLo b ≤ d ∧ d < bandHi b := by
  rw [classify_distance_eq] at h
  split_ifs at h <;> injection h with h <;> subst h <;>
    refine ⟨?_, ?_⟩ <;> simp only [bandLo, bandHi] <;> linarith

theorem classify_of_mem {d : ℚ} {b : Band} (hlo : bandLo b ≤ d) (hhi : d < bandHi b) :
    classify_distance d = some b := by
  cases b <;> simp only [bandLo, bandHi] at hlo hhi <;> rw [classify_distance_eq] <;>
    split_ifs <;> first | rfl | (exfalso; linarith)

/-- `classify_distance d = some b` iff `d` lies in `b`'s half-open interval. -/
theorem classify_spec (d : ℚ) (b : Band) :
    classify_distance d = some b ↔ bandLo b ≤ d ∧ d < bandHi b :=
  ⟨classify_mem_range, fun h => classify_of_mem h.1 h.2⟩

theorem classify_none {d : ℚ} (h : d < 1/2 ∨ 350 ≤ d) :
    classify_distance d = none := by
  rw [classify_distance_eq]
  rcases h with h | h <;> split_ifs <;> first | rfl | (exfalso; linarith)

/-! ## Robust depth statistics -/

/-- One depth pixel: `some v` is a finite float value in meters, `none` a
non-finite float (NaN or ±inf, for which `np.isfinite` is false). -/
abbrev Pixel := Option ℚ

/-- A decoded 2-D depth map in meters: `h` rows, `w` columns, and the pixel
value at each (row, column) position. -/
structure DepthMap where
  h : ℕ
  w : ℕ
  data : ℕ → ℕ → Pixel

/-- The shared validity predicate `(x > 0.1) & (x < 1000.0) & np.isfinite(x)`. -/
def validPixel : Pixel → Bool
  | none => false
  | some v => decide (1/10 < v) && decide (v < 1000)

/-- The valid depth values of a pixel list, in order (boolean-mask indexing). -/
def validDepths (l : List Pixel) : List ℚ :=
  l.filterMap fun p => if validPixel p then p else none

/-- The indices of a 1-D slice `[lo:hi]` of an array (hi already clipped). -/
def sliceIdx (lo hi : ℕ) : List ℕ :=
  (List.range (hi - lo)).map (· + lo)

/-- Row-major pixels of the 2-D slice
`depth_map[max(0,cy-r):min(h,cy+r+1), max(0,cx-r):min(w,cx+r+1)]`
with `cy, cx = h // 2, w // 2` (natural subtraction is `max 0` of the
integer difference). -/
def patchPixels (m : DepthMap) (r : ℕ) : List Pixel :=
  (sliceIdx (m.h / 2 - r) (min m.h (m.h / 2 + r + 1))).flatMap fun y =>
    (sliceIdx (m.w / 2 - r) (min m.w (m.w / 2 + r + 1))).map fun x => m.data y x

/-- `np.median`: sort ascending; middle element for odd length, mean of the two
middle elements for even length. -/
def median (l : List ℚ) : ℚ :=
  let s := List.insertionSort (· ≤ ·) l
  if l.length % 2 = 1 then s.getD (l.length / 2) 0
  else (s.getD (l.length / 2 - 1) 0 + s.getD (l.length / 2) 0) / 2

/-- `sample_center_patch`: median of the valid pixels of the center patch,
`None` when fewer than 3 valid pixels remain. -/
def sample_center_patch (m : DepthMap) (patch_radius : ℕ) : Option ℚ :=
  let valid := validDepths (patchPixels m patch_radius)
  if valid.length < 3 then none
  else some (median valid)

/-- Linear interpolation of a (sorted) value list at fractional position
`pos`: between order statistics `⌊pos⌋` and `⌊pos⌋ + 1`. -/
def interpolate (s : List ℚ) (pos : ℚ) : ℚ :=
  let k : ℕ := (⌊pos⌋).toNat
  let frac : ℚ := pos - (k : ℚ)
  if k + 1 < s.length then s.getD k 0 + frac * (s.getD (k + 1) 0 - s.getD k 0)
  else s.getD k 0

/-- `np.percentile(valid, q)` with linear interpolation on the sorted values
at position `q * (n - 1) / 100` (sorting preserves length). -/
def percentile (l : List ℚ) (q : ℚ) : ℚ :=
  interpolate (List.insertionSort (· ≤ ·) l) (q * ((l.length : ℚ) - 1) / 100)

/-- Row-major pixels of the central 30%-by-30% region of interest
(`roi_h, roi_w = int(h * 0.3), int(w * 0.3)`, `y0, x0 = (h - roi_h) // 2,
(w - roi_w) // 2`); `int(h * 0.3)` is modelled exactly as `h * 3 / 10`. -/
def roiPixels (m : DepthMap) : List Pixel :=
  let roi_h := m.h * 3 / 10
  let roi_w := m.w * 3 / 10
  let y0 := (m.h - roi_h) / 2
  let x0 := (m.w - roi_w) / 2
  (sliceIdx y0 (min m.h (y0 + roi_h))).flatMap fun y =>
    (sliceIdx x0 (min m.w (x0 + roi_w))).map fun x => m.data y x

/-- `compute_percentiles`: P25 and P75 of the valid pixels of the center ROI,
`(None, None)` when fewer than 10 valid pixels remain. -/
def compute_percentiles (m : DepthMap) : Option ℚ × Option ℚ :=
  let valid := validDepths (roiPixels m)
  if valid.length < 10 then (none, none)
  else (some (percentile valid 25), some (percentile valid 75))

/-! ## Rounding

Python's `round(x, 4)` rounds to the nearest multiple of `10 ^ -4`, ties to
even; it is modelled exactly on the rational value. -/

/-- Round a rational to the nearest integer, ties to even. -/
def pyRoundInt (x : ℚ) : ℤ :=
  let f := ⌊x⌋
  let r := x - (f : ℚ)
  if r < 1/2 then f
  else if 1/2 < r then f + 1
  else if f % 2 = 0 then f else f + 1

/-- `round(x, 4)`. -/
def round4 (x : ℚ) : ℚ := (pyRoundInt (x * 10000) : ℚ) / 10000

/-- Python truthiness on an optional float: `round(v, 4) if v else None`
(both `None` and `0.0` are falsy). -/
def optRound4 : Option ℚ → Option ℚ
  | none => none
  | some v => if v = 0 then none else some (round4 v)

theorem classify_total {d : ℚ} (hlo : 1/2 ≤ d) (hhi : d < 350) :
    ∃ b, classify_distance d = some b := by
  rw [classify_distance_eq]
  split_ifs <;> first | (exact ⟨_, rfl⟩) | (exfalso; linarith)

/-- C3: `classify` is a total pure function; on `[0.5, 350)` exactly one of the
six half-open bands contains the distance (the intervals partition the range,
low edges inclusive), and outside that range — in particular at `0.4999` and
at `350.0` — it returns `None`. -/
theorem C3_classify_totality_partition :
    (∀ d : ℚ,
      ((1/2 ≤ d ∧ d < 350) →
        ∃ b, classify_distance d = some b ∧
          ∀ b', (bandLo b' ≤ d ∧ d < bandHi b') ↔ b' = b)
      ∧ ((d < 1/2 ∨ 350 ≤ d) → classify_distance d = none))
    ∧ classify_distance (4999/10000) = none
    ∧ classify_distance 350 = none := by
  refine ⟨fun d => ⟨?_, classify_none⟩,
    classify_none (Or.inl (by norm_num)),
    classify_none (Or.inr (by norm_num))⟩
  rintro ⟨hlo, hhi⟩
  obtain ⟨b, hb⟩ := classify_total hlo hhi
  refine ⟨b, hb, fun b' => ⟨fun h' => ?_, fun h' => ?_⟩⟩
  · have h2 := classify_of_mem h'.1 h'.2
    rw [hb] at h2
    exact (Option.some.inj h2).symm
  · subst h'
    exact classify_mem_range hb

theorem length_grid (rs cs : List ℕ) (f : ℕ → ℕ → Pixel) :
    ((rs.flatMap fun y => cs.map (f y))).length = rs.length * cs.length := by
  induction rs with
  | nil => simp
  | cons y ys ih => simp only [List.flatMap_cons, List.length_append, ih,
      List.length_map, List.length_cons]; ring

theorem patchPixels_length (m : DepthMap) (r : ℕ) :
    (patchPixels m r).length =
      (min m.h (m.h / 2 + r + 1) - (m.h / 2 - r)) *
        (min m.w (m.w / 2 + r + 1) - (m.w / 2 - r)) := by
  rw [patchPixels, length_grid]
  simp [sliceIdx]

/-- The 9×9 all-5.0m map with a single invalid (non-finite) pixel at the
exact center. -/
def holeMap : DepthMap :=
  ⟨9, 9, fun y x => if y = 4 ∧ x = 4 then none else some 5⟩

section ConcreteEvaluation

attribute [local semireducible] Rat.add Rat.mul Rat.sub Rat.inv Rat.ofScientific

/-- C6: `sample_center_patch` with radius 2 returns the median of the valid
pixels of the clipped 5×5 center patch and returns `None` exactly when fewer
than 3 valid pixels remain; on an all-5.0m map with a one-pixel hole at the
exact center it returns 5.0, which classifies as `near_mid`. -/
theorem C6_center_patch_median :
    (∀ m : DepthMap,
      (sample_center_patch m 2 = none ↔ (validDepths (patchPixels m 2)).length < 3)
      ∧ (3 ≤ (validDepths (patchPixels m 2)).length →
          sample_center_patch m 2 = some (median (validDepths (patchPixels m 2)))))
    ∧ sample_center_patch holeMap 2 = some 5
    ∧ classify_distance 5 = some Band.near_mid := by
  refine ⟨fun m => ⟨?_, ?_⟩, by decide, by decide⟩
  · rw [sample_center_patch]
    split_ifs with h
    · simpa using h
    · simpa using h
  · intro h
    rw [sample_center_patch]
    split_ifs with h'
    · omega
    · rfl

/-- A tiny 2×3 depth map, smaller than the 5×5 patch. -/
def tinyMap : DepthMap := ⟨2, 3, fun _ _ => some 1⟩

/-- C10: for every non-empty 2-D array, the clipped patch slice of
`sample_center_patch` is in bounds and non-empty, and the function totally
returns either the median of at least 3 valid pixels or `None`. -/
theorem C10_sample_center_patch_total :
    ∀ m : DepthMap, 1 ≤ m.h → 1 ≤ m.w →
      (m.h / 2 - 2 < min m.h (m.h / 2 + 3) ∧ min m.h (m.h / 2 + 3) ≤ m.h
        ∧ m.w / 2 - 2 < min m.w (m.w / 2 + 3) ∧ min m.w (m.w / 2 + 3) ≤ m.w)
      ∧ 1 ≤ (patchPixels m 2).length
      ∧ ((sample_center_patch m 2 = none ∧ (validDepths (patchPixels m 2)).length < 3)
        ∨ (∃ v, sample_center_patch m 2 = some v
            ∧ v = median (validDepths (patchPixels m 2))
            ∧ 3 ≤ (validDepths (patchPixels m 2)).length)) := by
  intro m hh hw
  refine ⟨by omega, ?_, ?_⟩
  · rw [patchPixels_length]
    have h1 : 1 ≤ min m.h (m.h / 2 + 2 + 1) - (m.h / 2 - 2) := by omega
    have h2 : 1 ≤ min m.w (m.w / 2 + 2 + 1) - (m.w / 2 - 2) := by omega
    calc 1 = 1 * 1 := by omega
    _ ≤ _ := Nat.mul_le_mul h1 h2
  · rw [sample_center_patch]
    split_ifs with h
    · exact Or.inl ⟨rfl, h⟩
    · exact Or.inr ⟨_, rfl, rfl, by omega⟩

/-- Witness for C10 at the concrete 2×3 map. -/
theorem C10_witness :
    (tinyMap.h / 2 - 2 < min tinyMap.h (tinyMap.h / 2 + 3)
        ∧ min tinyMap.h (tinyMap.h / 2 + 3) ≤ tinyMap.h
        ∧ tinyMap.w / 2 - 2 < min tinyMap.w (tinyMap.w / 2 + 3)
        ∧ min tinyMap.w (tinyMap.w / 2 + 3) ≤ tinyMap.w)
      ∧ 1 ≤ (patchPixels tinyMap 2).length
      ∧ ((sample_center_patch tinyMap 2 = none
            ∧ (validDepths (patchPixels tinyMap 2)).length < 3)
        ∨ (∃ v, sample_center_patch tinyMap 2 = some v
            ∧ v = median (validDepths (patchPixels tinyMap 2))
            ∧ 3 ≤ (validDepths (patchPixels tinyMap 2)).length)) :=
  C10_sample_center_patch_total tinyMap (by decide) (by decide)

end ConcreteEvaluation

/-! ## Samples and quota state -/

/-- Camera intrinsics record `{fx, fy, cx, cy}`. -/
structure Intrinsics where
  fx : ℚ
  fy : ℚ
  cx : ℚ
  cy : ℚ
deriving DecidableEq, Repr

/-- `GroundTruthSample` dataclass. `distance_band` stores the band; the
Python code stores the band's name string, in bijection with `Band`. -/
structure GroundTruthSample where
  dataset : String
  frame_id : String
  ground_truth_center_m : ℚ
  lidar_center_m : Option ℚ := none
  ground_truth_p25_m : Option ℚ := none
  ground_truth_p75_m : Option ℚ := none
  intrinsics : Option Intrinsics := none
  image_width : ℕ := 0
  image_height : ℕ := 0
  scene_type : String := "indoor"
  distance_band : Band := .close
  depth_map_file : Option String := none
  image_file : Option String := none
deriving DecidableEq, Repr

/-- The shared per-band accepted-count state (`band_counts`); `.get(band, 0)`
on a dict holding every band is total function application. -/
abbrev BandCounts := Band → ℕ

def zeroCounts : BandCounts := fun _ => 0

/-- `band_counts[band] += 1`. -/
def bump (c : BandCounts) (b : Band) : BandCounts :=
  fun b' => if b' = b then c b' + 1 else c b'

/-- DIODE's standard intrinsics (1024x768). -/
def diodeIntrinsics : Intrinsics := ⟨886 + 81/100, 927 + 6/100, 512, 384⟩

/-- iPhone 16 Pro typical intrinsics used by the synthetic generator. -/
def iphoneIntrinsics : Intrinsics := ⟨1598, 1598, 960, 720⟩

/-! ## Real-data adapters (tier 1)

`process_arkitscenes` / `process_diode` walk the dataset directories and
decode files (out-of-scope I/O); the embedded part is the per-candidate
admission step each loop body performs on a decoded depth map, threading
the shared `band_counts`.  Tier ≥ 2 only attaches output file paths. -/

/-- Loop body of `process_arkitscenes` for one candidate frame (decoded
ground-truth and LiDAR depth maps in meters): center estimate, noise-floor
check, classification, quota check, percentiles, sample construction and
count increment.  Returns the emitted sample (if any) and the updated
counts. -/
def arkitProcessFrame (gt_depth lidar_depth : DepthMap)
    (intr : Option Intrinsics) (video_id frame_ts : String)
    (c : BandCounts) : Option GroundTruthSample × BandCounts :=
  match sample_center_patch gt_depth 2 with
  | none => (none, c)
  | some gt_center =>
    if gt_center < 3/10 then (none, c)
    else
      let lidar_center := sample_center_patch lidar_depth 2
      match classify_distance gt_center with
      | none => (none, c)
      | some band =>
        if BAND_TARGETS band ≤ c band then (none, c)
        else
          let p := compute_percentiles gt_depth
          let frame_id := "arkitscenes_" ++ video_id ++ "_" ++ frame_ts
          let sample : GroundTruthSample :=
            { dataset := "arkitscenes"
              frame_id := frame_id
              ground_truth_center_m := round4 gt_center
              lidar_center_m := optRound4 lidar_center
              ground_truth_p25_m := optRound4 p.1
              ground_truth_p75_m := optRound4 p.2
              intrinsics := intr
              image_width := 1920
              image_height := 1440
              scene_type := "indoor"
              distance_band := band }
          (some sample, bump c band)

/-- `np.where(mask, depth_map, 0)`: masked-out pixels become 0.0 (invalid,
since 0 ≤ 0.1). -/
def applyMask (depth : DepthMap) (mask : ℕ → ℕ → Bool) : DepthMap :=
  ⟨depth.h, depth.w, fun y x => if mask y x then depth.data y x else some 0⟩

/-- Loop body of `process_diode` for one candidate frame (depth map after
optional mask application). -/
def diodeProcessFrame (depth : DepthMap) (env scene_name scan_name frame_stem : String)
    (c : BandCounts) : Option GroundTruthSample × BandCounts :=
  match sample_center_patch depth 2 with
  | none => (none, c)
  | some gt_center =>
    if gt_center < 3/10 then (none, c)
    else
      match classify_distance gt_center with
      | none => (none, c)
      | some band =>
        if BAND_TARGETS band ≤ c band then (none, c)
        else
          let p := compute_percentiles depth
          let frame_id :=
            "diode_" ++ env ++ "_" ++ scene_name ++ "_" ++ scan_name ++ "_" ++ frame_stem
          let sample : GroundTruthSample :=
            { dataset := "diode"
              frame_id := frame_id
              ground_truth_center_m := round4 gt_center
              lidar_center_m := none
              ground_truth_p25_m := optRound4 p.1
              ground_truth_p75_m := optRound4 p.2
              intrinsics := some diodeIntrinsics
              image_width := 1024
              image_height := 768
              scene_type := env
              distance_band := band }
          (some sample, bump c band)

/-! ## Pseudo-random stream model -/

/-- Modelled from the spec: the seeded generators `random.Random(seed)` and
`np.random.RandomState(seed)` are library code (Mersenne Twister), not part
of this repository; the spec requires only that every draw is a
deterministic function of the integer seed.  An `Rng` is a deterministic
stream of raw rational draws, consumed at explicit indices. -/
structure Rng where
  raw : ℕ → ℚ

/-- A `random.random()`-style draw in `[0, 1)`: the fractional part of the
raw stream value at index `k`. -/
def Rng.unit (g : Rng) (k : ℕ) : ℚ := Int.fract (g.raw k)

/-- `rng.uniform(lo, hi) = lo + (hi - lo) * random()`. -/
def Rng.uniform (g : Rng) (k : ℕ) (lo hi : ℚ) : ℚ := lo + (hi - lo) * g.unit k

/-- `rng.randint(a, b)`: an integer in `[a, b]`, both ends inclusive. -/
def Rng.randint (g : Rng) (k : ℕ) (a b : ℕ) : ℕ :=
  a + (⌊((b : ℚ) - (a : ℚ) + 1) * g.unit k⌋).toNat

/-- `np_rng.normal(0, sigma) = sigma * z` for a standard-normal draw `z`,
modelled as the raw stream value (a normal draw can be any real). -/
def Rng.normal (g : Rng) (k : ℕ) (sigma : ℚ) : ℚ := sigma * g.raw k

/-- `rng.choice([a, b])` on a two-element list. -/
def Rng.choice2 (g : Rng) (k : ℕ) (a b : String) : String :=
  if g.unit k < 1/2 then a else b

/-- Modelled from the spec: `np_rng.lognormal(mean, sigma, size)` draws
`size` values from the (positive-support) log-normal distribution; the
transcendental transform of the underlying normal draws is library code, so
draw `i` is modelled as the absolute value of raw stream value `k + i`. -/
def lognormalDraws (g : Rng) (k size : ℕ) : List ℚ :=
  (List.range size).map fun i => |g.raw (k + i)|

theorem getD_cons_self_mem (x : α) (xs : List α) (j : ℕ) :
    (x :: xs).getD j x ∈ x :: xs := by
  rcases lt_or_le j (x :: xs).length with h | h
  · rw [List.getD_eq_getElem?_getD, List.getElem?_eq_getElem h]
    exact List.getElem_mem h
  · rw [List.getD_eq_getElem?_getD, List.getElem?_eq_none h]
    exact List.mem_cons_self x xs

/-- Modelled from the spec: `rng.shuffle(l)` permutes `l` in place driven by
the stream (Fisher–Yates is library code).  The model draws one position per
element, moves that element to the front and recurses on the rest. -/
def shuffleModel [DecidableEq α] (g : Rng) : ℕ → List α → List α
  | _, [] => []
  | k, x :: xs =>
    let j := (⌊(((x :: xs).length : ℚ)) * g.unit k⌋).toNat
    let a := (x :: xs).getD j x
    a :: shuffleModel g (k + 1) ((x :: xs).erase a)
  termination_by _ l => l.length
  decreasing_by
    rw [List.length_erase_of_mem (getD_cons_self_mem _ _ _)]
    simp only [List.length_cons]
    omega

theorem shuffleModel_perm_aux [DecidableEq α] (g : Rng) :
    ∀ (fuel k : ℕ) (l : List α), l.length ≤ fuel → List.Perm (shuffleModel g k l) l := by
  intro fuel
  induction fuel with
  | zero =>
    intro k l h
    cases l with
    | nil => simp [shuffleModel]
    | cons x xs => simp at h
  | succ f ih =>
    intro k l h
    cases l with
    | nil => simp [shuffleModel]
    | cons x xs =>
      simp only [shuffleModel]
      have hmem := getD_cons_self_mem x xs
        ((⌊(((x :: xs).length : ℚ)) * g.unit k⌋).toNat)
      have hlt : ((x :: xs).erase
          ((x :: xs).getD ((⌊(((x :: xs).length : ℚ)) * g.unit k⌋).toNat) x)).length ≤ f := by
        rw [List.length_erase_of_mem hmem]
        simp only [List.length_cons] at h ⊢
        omega
      exact ((ih _ _ hlt).cons _).trans (List.perm_cons_erase hmem).symm

/-- The shuffle model always permutes its input. -/
theorem shuffleModel_perm [DecidableEq α] (g : Rng) (k : ℕ) (l : List α) :
    List.Perm (shuffleModel g k l) l :=
  shuffleModel_perm_aux g l.length k l le_rfl

/-! ## Synthetic generator -/

/-- Model of the f-string field `{n:05d}`: five zero-padded decimal digits
(exact for `n < 100000`; every identifier drawn by the generator is at most
5000). -/
def pad5 (n : ℕ) : String :=
  ⟨[Char.ofNat (48 + n / 10000 % 10), Char.ofNat (48 + n / 1000 % 10),
    Char.ofNat (48 + n / 100 % 10), Char.ofNat (48 + n / 10 % 10),
    Char.ofNat (48 + n % 10)]⟩

/-- Model of the f-string field `{n:010d}`: ten zero-padded decimal digits
(exact for `n < 10^10`). -/
def pad10 (n : ℕ) : String :=
  ⟨[Char.ofNat (48 + n / 1000000000 % 10), Char.ofNat (48 + n / 100000000 % 10),
    Char.ofNat (48 + n / 10000000 % 10), Char.ofNat (48 + n / 1000000 % 10),
    Char.ofNat (48 + n / 100000 % 10), Char.ofNat (48 + n / 10000 % 10),
    Char.ofNat (48 + n / 1000 % 10), Char.ofNat (48 + n / 100 % 10),
    Char.ofNat (48 + n / 10 % 10), Char.ofNat (48 + n % 10)]⟩

/-- The `arkitscenes` synthetic frame id
`f"arkitscenes_{scene_num:05d}_{frame_num:010d}"`. -/
def synArkFrameId (scene_num frame_num : ℕ) : String :=
  "arkitscenes_" ++ pad5 scene_num ++ "_" ++ pad10 frame_num

/-- The `diode` synthetic frame id
`f"diode_{env}_scene_{scene_num:05d}_scan_{scan_num:05d}_{frame_num:05d}"`. -/
def synDiodeFrameId (env : String) (scene_num scan_num frame_num : ℕ) : String :=
  "diode_" ++ env ++ "_scene_" ++ pad5 scene_num ++ "_scan_" ++ pad5 scan_num
    ++ "_" ++ pad5 frame_num

/-- The quota-fill frame id
`f"{dataset}_{env}_{scene_num:05d}_{scan_num:05d}_{frame_num:05d}"`. -/
def fillFrameId (dataset env : String) (scene_num scan_num frame_num : ℕ) : String :=
  dataset ++ "_" ++ env ++ "_" ++ pad5 scene_num ++ "_" ++ pad5 scan_num
    ++ "_" ++ pad5 frame_num

/-- Running state of `generate_synthetic_manifest`: the accumulating sample
list, the per-band counts, and the next draw indices of the two streams. -/
structure SynState where
  samples : List GroundTruthSample
  counts : BandCounts
  krng : ℕ
  knp : ℕ

/-- Loop body of the ARKitScenes-like indoor pass (one drawn distance `d`):
classify, quota check, simulated LiDAR noise, simulated spread, sample,
count increment. -/
def synArkStep (rng np_rng : Rng) (st : SynState) (d : ℚ) : SynState :=
  match classify_distance d with
  | none => st
  | some band =>
    if BAND_TARGETS band ≤ st.counts band then st
    else
      let lidar_noise_pct : ℚ := if d < 3 then 1/100 else if d < 5 then 3/100 else 8/100
      let lidar_reading := d * (1 + np_rng.normal st.knp lidar_noise_pct)
      let spread := d * rng.uniform st.krng (3/10) (4/5)
      let p25 := max (3/10) (d - spread * (2/5))
      let p75 := d + spread * (3/5)
      let scene_num := rng.randint (st.krng + 1) 1 500
      let frame_num := rng.randint (st.krng + 2) 1 5000
      let sample : GroundTruthSample :=
        { dataset := "arkitscenes"
          frame_id := synArkFrameId scene_num frame_num
          ground_truth_center_m := round4 d
          lidar_center_m := some (round4 lidar_reading)
          ground_truth_p25_m := some (round4 p25)
          ground_truth_p75_m := some (round4 p75)
          intrinsics := some iphoneIntrinsics
          image_width := 1920
          image_height := 1440
          scene_type := "indoor"
          distance_band := band }
      ⟨st.samples ++ [sample], bump st.counts band, st.krng + 3, st.knp + 1⟩

/-- Loop body of the DIODE indoor pass (one drawn distance `d`). -/
def synDiodeIndoorStep (rng : Rng) (st : SynState) (d : ℚ) : SynState :=
  match classify_distance d with
  | none => st
  | some band =>
    if BAND_TARGETS band ≤ st.counts band then st
    else
      let spread := d * rng.uniform st.krng (1/5) (3/5)
      let p25 := max (3/10) (d - spread * (2/5))
      let p75 := d + spread * (3/5)
      let scene_num := rng.randint (st.krng + 1) 1 200
      let scan_num := rng.randint (st.krng + 2) 1 50
      let frame_num := rng.randint (st.krng + 3) 1 300
      let sample : GroundTruthSample :=
        { dataset := "diode"
          frame_id := synDiodeFrameId "indoor" scene_num scan_num frame_num
          ground_truth_center_m := round4 d
          lidar_center_m := none
          ground_truth_p25_m := some (round4 p25)
          ground_truth_p75_m := some (round4 p75)
          intrinsics := some diodeIntrinsics
          image_width := 1024
          image_height := 768
          scene_type := "indoor"
          distance_band := band }
      ⟨st.samples ++ [sample], bump st.counts band, st.krng + 4, st.knp⟩

/-- Loop body of the DIODE outdoor pass (one drawn distance `d`). -/
def synDiodeOutdoorStep (rng : Rng) (st : SynState) (d : ℚ) : SynState :=
  match classify_distance d with
  | none => st
  | some band =>
    if BAND_TARGETS band ≤ st.counts band then st
    else
      let spread := d * rng.uniform st.krng (2/5) (6/5)
      let p25 := max (1/2) (d - spread * (3/10))
      let p75 := d + spread * (7/10)
      let scene_num := rng.randint (st.krng + 1) 1 200
      let scan_num := rng.randint (st.krng + 2) 1 50
      let frame_num := rng.randint (st.krng + 3) 1 300
      let sample : GroundTruthSample :=
        { dataset := "diode"
          frame_id := synDiodeFrameId "outdoor" scene_num scan_num frame_num
          ground_truth_center_m := round4 d
          lidar_center_m := none
          ground_truth_p25_m := some (round4 p25)
          ground_truth_p75_m := some (round4 p75)
          intrinsics := some diodeIntrinsics
          image_width := 1024
          image_height := 768
          scene_type := "outdoor"
          distance_band := band }
      ⟨st.samples ++ [sample], bump st.counts band, st.krng + 4, st.knp⟩

/-- One iteration of the quota-fill `while` loop for band `b`
(lines 585-623): draw a uniform distance inside the band, choose
source/environment pseudo-randomly, simulate noise and spread, and build the
sample.  Returns the sample and the advanced stream indices. -/
def fillOne (rng np_rng : Rng) (krng knp : ℕ) (b : Band) :
    GroundTruthSample × ℕ × ℕ :=
  let d := rng.uniform krng (bandLo b) (bandHi b)
  let k1 := krng + 1
  -- is_outdoor = d > 15.0 or rng.random() < 0.3 (short-circuit: the draw
  -- happens only when d ≤ 15)
  let od : Bool × ℕ :=
    if 15 < d then (true, k1) else (decide (rng.unit k1 < 3/10), k1 + 1)
  let is_outdoor := od.1
  let k2 := od.2
  -- dataset = "diode" if is_outdoor or d > 10.0 else rng.choice([...])
  let ds : String × ℕ :=
    if is_outdoor || decide (10 < d) then ("diode", k2)
    else (rng.choice2 k2 "arkitscenes" "diode", k2 + 1)
  let dataset := ds.1
  let k3 := ds.2
  let scene_type := if is_outdoor then "outdoor" else "indoor"
  let ln : Option ℚ × ℕ :=
    if dataset = "arkitscenes" ∧ d < 10 then
      let noise : ℚ := if d < 3 then 1/100 else if d < 5 then 3/100 else 8/100
      (some (round4 (d * (1 + np_rng.normal knp noise))), knp + 1)
    else (none, knp)
  let spread := d * rng.uniform k3 (3/10) 1
  let p25 := max (3/10) (d - spread * (2/5))
  let p75 := d + spread * (3/5)
  let scene_num := rng.randint (k3 + 1) 1 500
  let scan_num := rng.randint (k3 + 2) 1 50
  let frame_num := rng.randint (k3 + 3) 1 5000
  let env := if is_outdoor then "outdoor" else "indoor"
  let sample : GroundTruthSample :=
    { dataset := dataset
      frame_id := fillFrameId dataset env scene_num scan_num frame_num
      ground_truth_center_m := round4 d
      lidar_center_m := ln.1
      ground_truth_p25_m := some (round4 p25)
      ground_truth_p75_m := some (round4 p75)
      intrinsics := some (if dataset = "arkitscenes" then iphoneIntrinsics else diodeIntrinsics)
      image_width := if dataset = "arkitscenes" then 1920 else 1024
      image_height := if dataset = "arkitscenes" then 1440 else 768
      scene_type := scene_type
      distance_band := b }
  (sample, k3 + 4, ln.2)

/-- `n` iterations of the quota-fill `while` loop for band `b` (the loop's
variant is the deficit `target - count`, which strictly decreases since every
iteration appends exactly one sample of band `b`). -/
def fillBand (rng np_rng : Rng) (b : Band) :
    ℕ → ℕ → ℕ → List GroundTruthSample × ℕ × ℕ
  | 0, krng, knp => ([], krng, knp)
  | n + 1, krng, knp =>
    let r := fillOne rng np_rng krng knp b
    let rest := fillBand rng np_rng b n r.2.1 r.2.2
    (r.1 :: rest.1, rest.2)

/-- The `for band_name in DISTANCE_BANDS` quota-fill loop. -/
def fillLoop (rng np_rng : Rng) : List Band → SynState → SynState
  | [], st => st
  | b :: bs, st =>
    let need := BAND_TARGETS b - st.counts b
    let r := fillBand rng np_rng b need st.krng st.knp
    fillLoop rng np_rng bs
      ⟨st.samples ++ r.1,
        fun b' => if b' = b then st.counts b' + need else st.counts b',
        r.2.1, r.2.2⟩

/-- The ARKitScenes-like indoor pass (lines 461-502): 20000 log-normal
draws truncated to `[0.5, 10)`, folded through `synArkStep` from the empty
state.  `rng.shuffle(list(range(len(arkitscenes_distances))))` on the index
list only advances the `rng` stream (modelled as one draw per element, so
the first pass starts at `rng` index `arkD.length`). -/
def synArkPass (rng np_rng : Rng) : SynState :=
  let arkD := (lognormalDraws np_rng 0 20000).filter
    fun d => decide (1/2 ≤ d) && decide (d < 10)
  arkD.foldl (synArkStep rng np_rng) ⟨[], zeroCounts, arkD.length, 20000⟩

/-- The DIODE indoor pass (lines 504-540): 20000 log-normal draws truncated
to `[0.5, 15)`. -/
def synDiodeIndoorPass (rng np_rng : Rng) (st : SynState) : SynState :=
  ((lognormalDraws np_rng st.knp 20000).filter
      fun d => decide (1/2 ≤ d) && decide (d < 15)).foldl
    (synDiodeIndoorStep rng) { st with knp := st.knp + 20000 }

/-- The DIODE outdoor pass (lines 542-579): 50000 log-normal draws truncated
to `[5, 350)`. -/
def synDiodeOutdoorPass (rng np_rng : Rng) (st : SynState) : SynState :=
  ((lognormalDraws np_rng st.knp 50000).filter
      fun d => decide (5 ≤ d) && decide (d < 350)).foldl
    (synDiodeOutdoorStep rng) { st with knp := st.knp + 50000 }

/-- `generate_synthetic_manifest`: the three primary log-normal passes, the
uniform quota-fill pass, and the final shuffle. -/
def generate_synthetic_manifest (rng np_rng : Rng) : List GroundTruthSample :=
  let st5 := fillLoop rng np_rng DISTANCE_BANDS
    (synDiodeOutdoorPass rng np_rng
      (synDiodeIndoorPass rng np_rng (synArkPass rng np_rng)))
  shuffleModel rng st5.krng st5.samples

/-- Loop body of `main`'s synthetic backfill (lines 723-727): a synthetic
sample is appended only when its band is still below target. -/
def mainBackfillStep (acc : List GroundTruthSample × BandCounts)
    (s : GroundTruthSample) : List GroundTruthSample × BandCounts :=
  if acc.2 s.distance_band < BAND_TARGETS s.distance_band then
    (acc.1 ++ [s], bump acc.2 s.distance_band)
  else acc

/-! ## Quota admission events -/

theorem bump_le {c : BandCounts} {b : Band}
    (hlt : c b < BAND_TARGETS b) (h : ∀ b', c b' ≤ BAND_TARGETS b') :
    ∀ b', bump c b b' ≤ BAND_TARGETS b' := by
  intro b'
  rw [bump]
  split_ifs with e
  · subst e; omega
  · exact h b'

theorem arkitProcessFrame_counts (gt_depth lidar_depth : DepthMap)
    (intr : Option Intrinsics) (vid ts : String) (c : BandCounts) :
    (arkitProcessFrame gt_depth lidar_depth intr vid ts c).2 = c ∨
      ∃ b, c b < BAND_TARGETS b ∧
        (arkitProcessFrame gt_depth lidar_depth intr vid ts c).2 = bump c b := by
  unfold arkitProcessFrame
  cases sample_center_patch gt_depth 2 with
  | none => exact Or.inl rfl
  | some v =>
    dsimp only
    split_ifs with h1
    · exact Or.inl rfl
    · cases classify_distance v with
      | none => exact Or.inl rfl
      | some band =>
        dsimp only
        split_ifs with h2
        · exact Or.inl rfl
        · exact Or.inr ⟨band, by omega, rfl⟩

theorem diodeProcessFrame_counts (depth : DepthMap) (env sc sn fs : String)
    (c : BandCounts) :
    (diodeProcessFrame depth env sc sn fs c).2 = c ∨
      ∃ b, c b < BAND_TARGETS b ∧
        (diodeProcessFrame depth env sc sn fs c).2 = bump c b := by
  unfold diodeProcessFrame
  cases sample_center_patch depth 2 with
  | none => exact Or.inl rfl
  | some v =>
    dsimp only
    split_ifs with h1
    · exact Or.inl rfl
    · cases classify_distance v with
      | none => exact Or.inl rfl
      | some band =>
        dsimp only
        split_ifs with h2
        · exact Or.inl rfl
        · exact Or.inr ⟨band, by omega, rfl⟩

theorem synArkStep_counts (rng np_rng : Rng) (st : SynState) (d : ℚ) :
    (synArkStep rng np_rng st d).counts = st.counts ∨
      ∃ b, st.counts b < BAND_TARGETS b ∧
        (synArkStep rng np_rng st d).counts = bump st.counts b := by
  unfold synArkStep
  cases classify_distance d with
  | none => exact Or.inl rfl
  | some band =>
    dsimp only
    split_ifs <;>
      first | exact Or.inl rfl | exact Or.inr ⟨band, by omega, rfl⟩

theorem synDiodeIndoorStep_counts (rng : Rng) (st : SynState) (d : ℚ) :
    (synDiodeIndoorStep rng st d).counts = st.counts ∨
      ∃ b, st.counts b < BAND_TARGETS b ∧
        (synDiodeIndoorStep rng st d).counts = bump st.counts b := by
  unfold synDiodeIndoorStep
  cases classify_distance d with
  | none => exact Or.inl rfl
  | some band =>
    dsimp only
    split_ifs <;>
      first | exact Or.inl rfl | exact Or.inr ⟨band, by omega, rfl⟩

theorem synDiodeOutdoorStep_counts (rng : Rng) (st : SynState) (d : ℚ) :
    (synDiodeOutdoorStep rng st d).counts = st.counts ∨
      ∃ b, st.counts b < BAND_TARGETS b ∧
        (synDiodeOutdoorStep rng st d).counts = bump st.counts b := by
  unfold synDiodeOutdoorStep
  cases classify_distance d with
  | none => exact Or.inl rfl
  | some band =>
    dsimp only
    split_ifs <;>
      first | exact Or.inl rfl | exact Or.inr ⟨band, by omega, rfl⟩

/-- One admission event: a real-adapter candidate frame, a synthetic primary
candidate, one iteration of the synthetic quota-fill `while` loop, or one
candidate of `main`'s synthetic backfill.  All run against the same shared
count state. -/
inductive AdmissionEvent where
  | arkFrame (gt_depth lidar_depth : DepthMap) (intr : Option Intrinsics)
      (video_id frame_ts : String)
  | diodeFrame (depth : DepthMap) (env scene_name scan_name frame_stem : String)
  | synArk (rng np_rng : Rng) (d : ℚ)
  | synDiodeIndoor (rng : Rng) (d : ℚ)
  | synDiodeOutdoor (rng : Rng) (d : ℚ)
  | synFillIter (rng np_rng : Rng) (b : Band)
  | backfill (s : GroundTruthSample)

/-- Run one admission event against the shared state. -/
def runEvent (st : SynState) : AdmissionEvent → SynState
  | .arkFrame gt_depth lidar_depth intr vid ts =>
    let r := arkitProcessFrame gt_depth lidar_depth intr vid ts st.counts
    ⟨st.samples ++ r.1.toList, r.2, st.krng, st.knp⟩
  | .diodeFrame depth env sc sn fs =>
    let r := diodeProcessFrame depth env sc sn fs st.counts
    ⟨st.samples ++ r.1.toList, r.2, st.krng, st.knp⟩
  | .synArk rng np_rng d => synArkStep rng np_rng st d
  | .synDiodeIndoor rng d => synDiodeIndoorStep rng st d
  | .synDiodeOutdoor rng d => synDiodeOutdoorStep rng st d
  | .synFillIter rng np_rng b =>
    if st.counts b < BAND_TARGETS b then
      let r := fillOne rng np_rng st.krng st.knp b
      ⟨st.samples ++ [r.1], bump st.counts b, r.2.1, r.2.2⟩
    else st
  | .backfill s =>
    let r := mainBackfillStep (st.samples, st.counts) s
    ⟨r.1, r.2, st.krng, st.knp⟩

theorem runEvent_counts_le (st : SynState) (e : AdmissionEvent)
    (h : ∀ b, st.counts b ≤ BAND_TARGETS b) :
    ∀ b, (runEvent st e).counts b ≤ BAND_TARGETS b := by
  cases e with
  | arkFrame gt_depth lidar_depth intr vid ts =>
    rcases arkitProcessFrame_counts gt_depth lidar_depth intr vid ts st.counts with
      hc | ⟨b, hb, hc⟩ <;> simp only [runEvent, hc] <;>
      first | exact h | exact bump_le hb h
  | diodeFrame depth env sc sn fs =>
    rcases diodeProcessFrame_counts depth env sc sn fs st.counts with
      hc | ⟨b, hb, hc⟩ <;> simp only [runEvent, hc] <;>
      first | exact h | exact bump_le hb h
  | synArk rng np_rng d =>
    rcases synArkStep_counts rng np_rng st d with hc | ⟨b, hb, hc⟩ <;>
      simp only [runEvent, hc] <;> first | exact h | exact bump_le hb h
  | synDiodeIndoor rng d =>
    rcases synDiodeIndoorStep_counts rng st d with hc | ⟨b, hb, hc⟩ <;>
      simp only [runEvent, hc] <;> first | exact h | exact bump_le hb h
  | synDiodeOutdoor rng d =>
    rcases synDiodeOutdoorStep_counts rng st d with hc | ⟨b, hb, hc⟩ <;>
      simp only [runEvent, hc] <;> first | exact h | exact bump_le hb h
  | synFillIter rng np_rng b =>
    simp only [runEvent]
    split_ifs with hb
    · exact bump_le hb h
    · exact h
  | backfill s =>
    simp only [runEvent, mainBackfillStep]
    split_ifs with hb
    · exact bump_le hb h
    · exact h

theorem foldl_runEvent_counts_le (events : List AdmissionEvent) :
    ∀ (st : SynState), (∀ b, st.counts b ≤ BAND_TARGETS b) →
      ∀ b, (events.foldl runEvent st).counts b ≤ BAND_TARGETS b := by
  induction events with
  | nil => intro st h b; exact h b
  | cons e es ih =>
    intro st h b
    exact ih (runEvent st e) (runEvent_counts_le st e h) b

/-- C1: in every run — real adapters, synthetic primary generation, the
synthetic quota-fill loop and `main`'s synthetic backfill alike — every
band's accepted count stays at or below that band's target after every
single admission step (every prefix of the event sequence), because each
acceptance first checks `count < target` and then increments by exactly
one. -/
theorem C1_quota_monotone_bound :
    ∀ (events : List AdmissionEvent) (n : ℕ) (b : Band),
      ((events.take n).foldl runEvent ⟨[], zeroCounts, 0, 0⟩).counts b
        ≤ BAND_TARGETS b := by
  intro events n b
  exact foldl_runEvent_counts_le (events.take n) _ (fun _ => Nat.zero_le _) b

/-! ## The admission protocol (C2) -/

theorem arkit_accept_iff (gt_depth lidar_depth : DepthMap) (intr : Option Intrinsics)
    (vid ts : String) (c : BandCounts) :
    (arkitProcessFrame gt_depth lidar_depth intr vid ts c).1.isSome ↔
      ∃ v b, sample_center_patch gt_depth 2 = some v ∧ 3/10 ≤ v
        ∧ classify_distance v = some b ∧ c b < BAND_TARGETS b := by
  unfold arkitProcessFrame
  cases hsc : sample_center_patch gt_depth 2 with
  | none =>
    constructor
    · intro h; simp at h
    · rintro ⟨v, b, hv, -, -, -⟩
      simp at hv
  | some v =>
    dsimp only
    split_ifs with hlt
    · constructor
      · intro h; simp at h
      · rintro ⟨v', b, hv', h3, -, -⟩
        injection hv' with e; subst e
        linarith
    · cases hcl : classify_distance v with
      | none =>
        constructor
        · intro h; simp at h
        · rintro ⟨v', b, hv', -, hb, -⟩
          injection hv' with e; subst e
          rw [hcl] at hb; cases hb
      | some band =>
        dsimp only
        split_ifs with hq
        · constructor
          · intro h; simp at h
          · rintro ⟨v', b, hv', -, hb, hc2⟩
            injection hv' with e; subst e
            rw [hcl] at hb; injection hb with e2; subst e2
            omega
        · constructor
          · intro _
            exact ⟨v, band, rfl, le_of_not_lt hlt, hcl, by omega⟩
          · intro _; simp

theorem arkit_reject_frame (gt_depth lidar_depth : DepthMap) (intr : Option Intrinsics)
    (vid ts : String) (c : BandCounts) :
    (arkitProcessFrame gt_depth lidar_depth intr vid ts c).1 = none →
      (arkitProcessFrame gt_depth lidar_depth intr vid ts c).2 = c := by
  unfold arkitProcessFrame
  cases sample_center_patch gt_depth 2 with
  | none => intro _; rfl
  | some v =>
    dsimp only
    split_ifs with hlt
    · intro _; rfl
    · cases classify_distance v with
      | none => intro _; rfl
      | some band =>
        dsimp only
        split_ifs with hq
        · intro _; rfl
        · intro h; cases h

theorem arkit_accept_counts (gt_depth lidar_depth : DepthMap) (intr : Option Intrinsics)
    (vid ts : String) (c : BandCounts) (s : GroundTruthSample) :
    (arkitProcessFrame gt_depth lidar_depth intr vid ts c).1 = some s →
      (arkitProcessFrame gt_depth lidar_depth intr vid ts c).2 = bump c s.distance_band := by
  unfold arkitProcessFrame
  cases sample_center_patch gt_depth 2 with
  | none => intro h; cases h
  | some v =>
    dsimp only
    split_ifs with hlt
    · intro h; cases h
    · cases classify_distance v with
      | none => intro h; cases h
      | some band =>
        dsimp only
        split_ifs with hq
        · intro h; cases h
        · intro h
          injection h with e
          subst e
          rfl

theorem diode_accept_iff (depth : DepthMap) (env sc sn fs : String) (c : BandCounts) :
    (diodeProcessFrame depth env sc sn fs c).1.isSome ↔
      ∃ v b, sample_center_patch depth 2 = some v ∧ 3/10 ≤ v
        ∧ classify_distance v = some b ∧ c b < BAND_TARGETS b := by
  unfold diodeProcessFrame
  cases hsc : sample_center_patch depth 2 with
  | none =>
    constructor
    · intro h; simp at h
    · rintro ⟨v, b, hv, -, -, -⟩
      simp at hv
  | some v =>
    dsimp only
    split_ifs with hlt
    · constructor
      · intro h; simp at h
      · rintro ⟨v', b, hv', h3, -, -⟩
        injection hv' with e; subst e
        linarith
    · cases hcl : classify_distance v with
      | none =>
        constructor
        · intro h; simp at h
        · rintro ⟨v', b, hv', -, hb, -⟩
          injection hv' with e; subst e
          rw [hcl] at hb; cases hb
      | some band =>
        dsimp only
        split_ifs with hq
        · constructor
          · intro h; simp at h
          · rintro ⟨v', b, hv', -, hb, hc2⟩
            injection hv' with e; subst e
            rw [hcl] at hb; injection hb with e2; subst e2
            omega
        · constructor
          · intro _
            exact ⟨v, band, rfl, le_of_not_lt hlt, hcl, by omega⟩
          · intro _; simp

theorem diode_reject_frame (depth : DepthMap) (env sc sn fs : String) (c : BandCounts) :
    (diodeProcessFrame depth env sc sn fs c).1 = none →
      (diodeProcessFrame depth env sc sn fs c).2 = c := by
  unfold diodeProcessFrame
  cases sample_center_patch depth 2 with
  | none => intro _; rfl
  | some v =>
    dsimp only
    split_ifs with hlt
    · intro _; rfl
    · cases classify_distance v with
      | none => intro _; rfl
      | some band =>
        dsimp only
        split_ifs with hq
        · intro _; rfl
        · intro h; cases h

theorem diode_accept_counts (depth : DepthMap) (env sc sn fs : String) (c : BandCounts)
    (s : GroundTruthSample) :
    (diodeProcessFrame depth env sc sn fs c).1 = some s →
      (diodeProcessFrame depth env sc sn fs c).2 = bump c s.distance_band := by
  unfold diodeProcessFrame
  cases sample_center_patch depth 2 with
  | none => intro h; cases h
  | some v =>
    dsimp only
    split_ifs with hlt
    · intro h; cases h
    · cases classify_distance v with
      | none => intro h; cases h
      | some band =>
        dsimp only
        split_ifs with hq
        · intro h; cases h
        · intro h
          injection h with e
          subst e
          rfl

/-- C2: in both real adapters a candidate is accepted iff its center estimate
exists, is at least 0.3 m, classifies into a band, and that band is below
target (checked in that order in the definitions, with the spread
percentiles computed only in the accept branch); acceptance increments
exactly that band's count and rejection leaves the counts unchanged. -/
theorem C2_admission_accept_iff :
    (∀ (gt_depth lidar_depth : DepthMap) (intr : Option Intrinsics)
        (vid ts : String) (c : BandCounts),
      ((arkitProcessFrame gt_depth lidar_depth intr vid ts c).1.isSome ↔
        ∃ v b, sample_center_patch gt_depth 2 = some v ∧ 3/10 ≤ v
          ∧ classify_distance v = some b ∧ c b < BAND_TARGETS b)
      ∧ ((arkitProcessFrame gt_depth lidar_depth intr vid ts c).1 = none →
          (arkitProcessFrame gt_depth lidar_depth intr vid ts c).2 = c)
      ∧ (∀ s, (arkitProcessFrame gt_depth lidar_depth intr vid ts c).1 = some s →
          (arkitProcessFrame gt_depth lidar_depth intr vid ts c).2
            = bump c s.distance_band))
    ∧ (∀ (depth : DepthMap) (env sc sn fs : String) (c : BandCounts),
      ((diodeProcessFrame depth env sc sn fs c).1.isSome ↔
        ∃ v b, sample_center_patch depth 2 = some v ∧ 3/10 ≤ v
          ∧ classify_distance v = some b ∧ c b < BAND_TARGETS b)
      ∧ ((diodeProcessFrame depth env sc sn fs c).1 = none →
          (diodeProcessFrame depth env sc sn fs c).2 = c)
      ∧ (∀ s, (diodeProcessFrame depth env sc sn fs c).1 = some s →
          (diodeProcessFrame depth env sc sn fs c).2 = bump c s.distance_band)) :=
  ⟨fun gt_depth lidar_depth intr vid ts c =>
    ⟨arkit_accept_iff gt_depth lidar_depth intr vid ts c,
     arkit_reject_frame gt_depth lidar_depth intr vid ts c,
     fun s => arkit_accept_counts gt_depth lidar_depth intr vid ts c s⟩,
   fun depth env sc sn fs c =>
    ⟨diode_accept_iff depth env sc sn fs c,
     diode_reject_frame depth env sc sn fs c,
     fun s => diode_accept_counts depth env sc sn fs c s⟩⟩

/-! ## Spread ordering (C7) -/

theorem interpolate_def (s : List ℚ) (pos : ℚ) :
    interpolate s pos =
      if (⌊pos⌋).toNat + 1 < s.length
      then s.getD (⌊pos⌋).toNat 0
        + (pos - ((⌊pos⌋).toNat : ℚ))
          * (s.getD ((⌊pos⌋).toNat + 1) 0 - s.getD (⌊pos⌋).toNat 0)
      else s.getD (⌊pos⌋).toNat 0 := rfl

theorem sorted_getD_mono {s : List ℚ} (hs : List.Sorted (· ≤ ·) s)
    {i j : ℕ} (hij : i ≤ j) (hj : j < s.length) :
    s.getD i 0 ≤ s.getD j 0 := by
  have hi : i < s.length := lt_of_le_of_lt hij hj
  rw [List.getD_eq_getElem?_getD, List.getD_eq_getElem?_getD,
    List.getElem?_eq_getElem hi, List.getElem?_eq_getElem hj]
  simp only [Option.getD_some]
  have := hs.rel_get_of_le (a := ⟨i, hi⟩) (b := ⟨j, hj⟩) hij
  simpa [List.get_eq_getElem] using this

theorem toNat_floor_le {pos : ℚ} (h : 0 ≤ pos) : (((⌊pos⌋).toNat : ℚ)) ≤ pos := by
  have h1 : (0:ℤ) ≤ ⌊pos⌋ := Int.floor_nonneg.mpr h
  have : (((⌊pos⌋).toNat : ℤ) : ℚ) ≤ pos := by
    rw [Int.toNat_of_nonneg h1]; exact Int.floor_le pos
  exact_mod_cast this

theorem lt_toNat_floor_add_one {pos : ℚ} (h : 0 ≤ pos) :
    pos < (((⌊pos⌋).toNat : ℚ)) + 1 := by
  have h1 : (0:ℤ) ≤ ⌊pos⌋ := Int.floor_nonneg.mpr h
  have : pos < (((⌊pos⌋).toNat : ℤ) : ℚ) + 1 := by
    rw [Int.toNat_of_nonneg h1]; exact Int.lt_floor_add_one pos
  exact_mod_cast this

theorem interpolate_mono {s : List ℚ} (hs : List.Sorted (· ≤ ·) s)
    {pos pos' : ℚ} (h0 : 0 ≤ pos) (h1 : pos ≤ pos')
    (h2 : pos' ≤ (s.length : ℚ) - 1) :
    interpolate s pos ≤ interpolate s pos' := by
  have h0' : 0 ≤ pos' := le_trans h0 h1
  have hn : 1 ≤ s.length := by
    by_contra hc
    have hz : s.length = 0 := by omega
    rw [hz] at h2
    norm_num at h2
    linarith
  have hkk : (⌊pos⌋).toNat ≤ (⌊pos'⌋).toNat :=
    Int.toNat_le_toNat (Int.floor_mono h1)
  have hk'n : (⌊pos'⌋).toNat < s.length := by
    have ha : (((⌊pos'⌋).toNat : ℚ)) ≤ (s.length : ℚ) - 1 :=
      le_trans (toNat_floor_le h0') h2
    have hb : (((⌊pos'⌋).toNat : ℚ)) < (s.length : ℚ) := by linarith
    exact_mod_cast hb
  rcases eq_or_lt_of_le hkk with he | hlt
  · -- same lower order statistic
    rw [interpolate_def, interpolate_def, ← he]
    split_ifs with hb
    · have hΔ : s.getD (⌊pos⌋).toNat 0 ≤ s.getD ((⌊pos⌋).toNat + 1) 0 :=
        sorted_getD_mono hs (by omega) hb
      nlinarith [h1, hΔ]
    · exact le_refl _
  · -- strictly larger lower order statistic
    have hb1 : (⌊pos⌋).toNat + 1 < s.length := by omega
    have e1 : interpolate s pos ≤ s.getD ((⌊pos⌋).toNat + 1) 0 := by
      rw [interpolate_def, if_pos hb1]
      have hΔ : s.getD (⌊pos⌋).toNat 0 ≤ s.getD ((⌊pos⌋).toNat + 1) 0 :=
        sorted_getD_mono hs (by omega) hb1
      have hf : pos - (((⌊pos⌋).toNat : ℚ)) < 1 := by
        have := lt_toNat_floor_add_one h0
        linarith
      nlinarith [hΔ, hf]
    have e2 : s.getD ((⌊pos⌋).toNat + 1) 0 ≤ s.getD ((⌊pos'⌋).toNat) 0 :=
      sorted_getD_mono hs (by omega) hk'n
    have e3 : s.getD ((⌊pos'⌋).toNat) 0 ≤ interpolate s pos' := by
      rw [interpolate_def]
      split_ifs with hb2
      · have hΔ : s.getD (⌊pos'⌋).toNat 0 ≤ s.getD ((⌊pos'⌋).toNat + 1) 0 :=
          sorted_getD_mono hs (by omega) hb2
        have hf : 0 ≤ pos' - (((⌊pos'⌋).toNat : ℚ)) := by
          have := toNat_floor_le h0'
          linarith
        nlinarith [hΔ, hf]
      · exact le_refl _
    linarith

/-- Percentiles are monotone in the percentage, in particular P25 ≤ P75. -/
theorem percentile_mono (l : List ℚ) (hl : l ≠ []) {q q' : ℚ}
    (h0 : 0 ≤ q) (hqq : q ≤ q') (h100 : q' ≤ 100) :
    percentile l q ≤ percentile l q' := by
  have hn : 1 ≤ l.length := List.length_pos.mpr hl
  have hn1 : (0:ℚ) ≤ (l.length : ℚ) - 1 := by
    have : (1:ℚ) ≤ (l.length : ℚ) := by exact_mod_cast hn
    linarith
  have hslen : (List.insertionSort (· ≤ ·) l).length = l.length :=
    (List.perm_insertionSort (· ≤ ·) l).length_eq
  rw [percentile, percentile]
  apply interpolate_mono (List.sorted_insertionSort (· ≤ ·) l)
  · exact div_nonneg (mul_nonneg h0 hn1) (by norm_num)
  · have := mul_le_mul_of_nonneg_right hqq hn1
    linarith
  · rw [hslen]
    have := mul_le_mul_of_nonneg_right h100 hn1
    linarith

theorem pyRoundInt_mono {x y : ℚ} (h : x ≤ y) : pyRoundInt x ≤ pyRoundInt y := by
  rcases lt_or_le (⌊x⌋) (⌊y⌋) with hf | hf
  · have h1 : pyRoundInt x ≤ ⌊x⌋ + 1 := by
      rw [pyRoundInt]; split_ifs <;> omega
    have h2 : ⌊y⌋ ≤ pyRoundInt y := by
      rw [pyRoundInt]; split_ifs <;> omega
    omega
  · have hf' : ⌊x⌋ = ⌊y⌋ := le_antisymm (Int.floor_mono h) hf
    have hr : x - ((⌊x⌋ : ℤ) : ℚ) ≤ y - ((⌊y⌋ : ℤ) : ℚ) := by
      rw [hf']; linarith
    rw [pyRoundInt, pyRoundInt, hf']
    rw [hf'] at hr
    split_ifs <;> first | omega | linarith
  
theorem round4_mono {x y : ℚ} (h : x ≤ y) : round4 x ≤ round4 y := by
  rw [round4, round4]
  have h1 : x * 10000 ≤ y * 10000 := by linarith
  have h2 : (pyRoundInt (x * 10000) : ℚ) ≤ (pyRoundInt (y * 10000) : ℚ) := by
    exact_mod_cast pyRoundInt_mono h1
  linarith

theorem optRound4_some {o : Option ℚ} {a : ℚ} (h : optRound4 o = some a) :
    ∃ v, o = some v ∧ a = round4 v := by
  cases o with
  | none => cases h
  | some v =>
    rw [optRound4] at h
    by_cases h0 : v = 0
    · rw [if_pos h0] at h; cases h
    · rw [if_neg h0] at h
      injection h with e
      exact ⟨v, rfl, e.symm⟩

theorem compute_percentiles_le (m : DepthMap) {v1 v2 : ℚ}
    (h1 : (compute_percentiles m).1 = some v1)
    (h2 : (compute_percentiles m).2 = some v2) : v1 ≤ v2 := by
  rw [compute_percentiles] at h1 h2
  by_cases hl : (validDepths (roiPixels m)).length < 10
  · rw [if_pos hl] at h1
    simp at h1
  · rw [if_neg hl] at h1 h2
    injection h1 with e1
    injection h2 with e2
    subst e1; subst e2
    apply percentile_mono
    · intro hnil
      rw [hnil] at hl
      simp at hl
    · norm_num
    · norm_num
    · norm_num

theorem classify_some_ge {d : ℚ} {b : Band} (h : classify_distance d = some b) :
    1/2 ≤ d := by
  have hr := classify_mem_range h
  have : (1/2 : ℚ) ≤ bandLo b := by cases b <;> norm_num [bandLo]
  linarith

theorem Rng.unit_nonneg (g : Rng) (k : ℕ) : 0 ≤ g.unit k := Int.fract_nonneg _

theorem Rng.unit_lt_one (g : Rng) (k : ℕ) : g.unit k < 1 := Int.fract_lt_one _

theorem uniform_ge {g : Rng} {k : ℕ} {lo hi : ℚ} (h : lo ≤ hi) :
    lo ≤ g.uniform k lo hi := by
  rw [Rng.uniform]
  nlinarith [g.unit_nonneg k]

theorem uniform_le {g : Rng} {k : ℕ} {lo hi : ℚ} (h : lo ≤ hi) :
    g.uniform k lo hi ≤ hi := by
  rw [Rng.uniform]
  nlinarith [g.unit_nonneg k, g.unit_lt_one k]

/-- The clamped asymmetric synthetic spread is ordered: for a center `d ≥ 0.3`
and a nonnegative spread, `max floor (d - spread * wlo) ≤ d + spread * whi`
after rounding. -/
theorem synth_spread_le {floor d spread wlo whi : ℚ}
    (hfloor : floor ≤ d) (hsp : 0 ≤ spread) (hwlo : 0 ≤ wlo) (hwhi : 0 ≤ whi) :
    round4 (max floor (d - spread * wlo)) ≤ round4 (d + spread * whi) := by
  apply round4_mono
  apply max_le
  · nlinarith
  · nlinarith

theorem arkit_spread_le (gt_depth lidar_depth : DepthMap) (intr : Option Intrinsics)
    (vid ts : String) (c : BandCounts) (s : GroundTruthSample)
    (hacc : (arkitProcessFrame gt_depth lidar_depth intr vid ts c).1 = some s)
    {a b : ℚ} (ha : s.ground_truth_p25_m = some a)
    (hb : s.ground_truth_p75_m = some b) : a ≤ b := by
  unfold arkitProcessFrame at hacc
  revert hacc
  cases sample_center_patch gt_depth 2 with
  | none => intro hacc; cases hacc
  | some v =>
    dsimp only
    split_ifs with hlt
    · intro hacc; cases hacc
    · cases classify_distance v with
      | none => intro hacc; cases hacc
      | some band =>
        dsimp only
        split_ifs with hq
        · intro hacc; cases hacc
        · intro hacc
          injection hacc with e
          subst e
          dsimp only at ha hb
          obtain ⟨v1, hv1, rfl⟩ := optRound4_some ha
          obtain ⟨v2, hv2, rfl⟩ := optRound4_some hb
          exact round4_mono (compute_percentiles_le gt_depth hv1 hv2)

theorem diode_spread_le (depth : DepthMap) (env sc sn fs : String)
    (c : BandCounts) (s : GroundTruthSample)
    (hacc : (diodeProcessFrame depth env sc sn fs c).1 = some s)
    {a b : ℚ} (ha : s.ground_truth_p25_m = some a)
    (hb : s.ground_truth_p75_m = some b) : a ≤ b := by
  unfold diodeProcessFrame at hacc
  revert hacc
  cases sample_center_patch depth 2 with
  | none => intro hacc; cases hacc
  | some v =>
    dsimp only
    split_ifs with hlt
    · intro hacc; cases hacc
    · cases classify_distance v with
      | none => intro hacc; cases hacc
      | some band =>
        dsimp only
        split_ifs with hq
        · intro hacc; cases hacc
        · intro hacc
          injection hacc with e
          subst e
          dsimp only at ha hb
          obtain ⟨v1, hv1, rfl⟩ := optRound4_some ha
          obtain ⟨v2, hv2, rfl⟩ := optRound4_some hb
          exact round4_mono (compute_percentiles_le depth hv1 hv2)

theorem mul_uniform_nonneg (g : Rng) (k : ℕ) {x lo hi : ℚ}
    (hx : 0 ≤ x) (h : 0 ≤ lo) (hlh : lo ≤ hi) : 0 ≤ x * g.uniform k lo hi :=
  mul_nonneg hx (le_trans h (uniform_ge hlh))

theorem synArk_spread_le (rng np_rng : Rng) (st : SynState) (d : ℚ)
    (s : GroundTruthSample)
    (h : (synArkStep rng np_rng st d).samples = st.samples ++ [s]) :
    ∀ a b : ℚ, s.ground_truth_p25_m = some a → s.ground_truth_p75_m = some b →
      a ≤ b := by
  unfold synArkStep at h
  revert h
  cases hcl : classify_distance d with
  | none =>
    intro h
    simp at h
  | some band =>
    dsimp only
    split_ifs with hq h3 h5
    · intro h
      simp at h
    all_goals
      intro h
      have e : s = _ := (List.cons.inj (List.append_cancel_left h.symm)).1
      subst e
      intro a b ha hb
      injection ha with ea
      injection hb with eb
      subst ea; subst eb
      have hd : 1/2 ≤ d := classify_some_ge hcl
      exact synth_spread_le (by linarith)
        (mul_uniform_nonneg rng _ (by linarith) (by norm_num) (by norm_num))
        (by norm_num) (by norm_num)

theorem synDiodeIndoor_spread_le (rng : Rng) (st : SynState) (d : ℚ)
    (s : GroundTruthSample)
    (h : (synDiodeIndoorStep rng st d).samples = st.samples ++ [s]) :
    ∀ a b : ℚ, s.ground_truth_p25_m = some a → s.ground_truth_p75_m = some b →
      a ≤ b := by
  unfold synDiodeIndoorStep at h
  revert h
  cases hcl : classify_distance d with
  | none =>
    intro h
    simp at h
  | some band =>
    dsimp only
    split_ifs with hq
    · intro h
      simp at h
    · intro h
      have e : s = _ := (List.cons.inj (List.append_cancel_left h.symm)).1
      subst e
      intro a b ha hb
      injection ha with ea
      injection hb with eb
      subst ea; subst eb
      have hd : 1/2 ≤ d := classify_some_ge hcl
      exact synth_spread_le (by linarith)
        (mul_uniform_nonneg rng _ (by linarith) (by norm_num) (by norm_num))
        (by norm_num) (by norm_num)

theorem synDiodeOutdoor_spread_le (rng : Rng) (st : SynState) (d : ℚ)
    (s : GroundTruthSample)
    (h : (synDiodeOutdoorStep rng st d).samples = st.samples ++ [s]) :
    ∀ a b : ℚ, s.ground_truth_p25_m = some a → s.ground_truth_p75_m = some b →
      a ≤ b := by
  unfold synDiodeOutdoorStep at h
  revert h
  cases hcl : classify_distance d with
  | none =>
    intro h
    simp at h
  | some band =>
    dsimp only
    split_ifs with hq
    · intro h
      simp at h
    · intro h
      have e : s = _ := (List.cons.inj (List.append_cancel_left h.symm)).1
      subst e
      intro a b ha hb
      injection ha with ea
      injection hb with eb
      subst ea; subst eb
      have hd : 1/2 ≤ d := classify_some_ge hcl
      exact synth_spread_le hd
        (mul_uniform_nonneg rng _ (by linarith) (by norm_num) (by norm_num))
        (by norm_num) (by norm_num)

theorem bandLo_le_bandHi (b : Band) : bandLo b ≤ bandHi b := by
  cases b <;> norm_num [bandLo, bandHi]

theorem bandLo_ge (b : Band) : (1/2 : ℚ) ≤ bandLo b := by
  cases b <;> norm_num [bandLo]

theorem fillOne_spread_le (rng np_rng : Rng) (krng knp : ℕ) (b : Band) :
    ∀ a c : ℚ,
      (fillOne rng np_rng krng knp b).1.ground_truth_p25_m = some a →
      (fillOne rng np_rng krng knp b).1.ground_truth_p75_m = some c →
      a ≤ c := by
  intro a c ha hc
  rw [fillOne] at ha hc
  dsimp only at ha hc
  injection ha with ea
  injection hc with ec
  subst ea; subst ec
  have hd2 : (1/2:ℚ) ≤ rng.uniform krng (bandLo b) (bandHi b) :=
    le_trans (bandLo_ge b) (uniform_ge (bandLo_le_bandHi b))
  exact synth_spread_le (by linarith)
    (mul_uniform_nonneg rng _ (by linarith) (by norm_num) (by norm_num))
    (by norm_num) (by norm_num)

/-- C7: whenever both `ground_truth_p25_m` and `ground_truth_p75_m` are
present on an emitted sample — real-data percentiles or the clamped
asymmetric synthetic spread, in every generating path — the stored
(4-decimal-rounded) values satisfy `p25 ≤ p75`. -/
theorem C7_p25_le_p75 :
    (∀ (gt_depth lidar_depth : DepthMap) (intr : Option Intrinsics)
        (vid ts : String) (c : BandCounts) (s : GroundTruthSample) (a b : ℚ),
      (arkitProcessFrame gt_depth lidar_depth intr vid ts c).1 = some s →
      s.ground_truth_p25_m = some a → s.ground_truth_p75_m = some b → a ≤ b)
    ∧ (∀ (depth : DepthMap) (env sc sn fs : String) (c : BandCounts)
        (s : GroundTruthSample) (a b : ℚ),
      (diodeProcessFrame depth env sc sn fs c).1 = some s →
      s.ground_truth_p25_m = some a → s.ground_truth_p75_m = some b → a ≤ b)
    ∧ (∀ (rng np_rng : Rng) (st : SynState) (d : ℚ) (s : GroundTruthSample) (a b : ℚ),
      (synArkStep rng np_rng st d).samples = st.samples ++ [s] →
      s.ground_truth_p25_m = some a → s.ground_truth_p75_m = some b → a ≤ b)
    ∧ (∀ (rng : Rng) (st : SynState) (d : ℚ) (s : GroundTruthSample) (a b : ℚ),
      (synDiodeIndoorStep rng st d).samples = st.samples ++ [s] →
      s.ground_truth_p25_m = some a → s.ground_truth_p75_m = some b → a ≤ b)
    ∧ (∀ (rng : Rng) (st : SynState) (d : ℚ) (s : GroundTruthSample) (a b : ℚ),
      (synDiodeOutdoorStep rng st d).samples = st.samples ++ [s] →
      s.ground_truth_p25_m = some a → s.ground_truth_p75_m = some b → a ≤ b)
    ∧ (∀ (rng np_rng : Rng) (krng knp : ℕ) (b : Band) (a c : ℚ),
      (fillOne rng np_rng krng knp b).1.ground_truth_p25_m = some a →
      (fillOne rng np_rng krng knp b).1.ground_truth_p75_m = some c → a ≤ c) :=
  ⟨fun gt_depth lidar_depth intr vid ts c s a b hacc ha hb =>
    arkit_spread_le gt_depth lidar_depth intr vid ts c s hacc ha hb,
   fun depth env sc sn fs c s a b hacc ha hb =>
    diode_spread_le depth env sc sn fs c s hacc ha hb,
   fun rng np_rng st d s a b h ha hb => synArk_spread_le rng np_rng st d s h a b ha hb,
   fun rng st d s a b h ha hb => synDiodeIndoor_spread_le rng st d s h a b ha hb,
   fun rng st d s a b h ha hb => synDiodeOutdoor_spread_le rng st d s h a b ha hb,
   fun rng np_rng krng knp b a c ha hc => fillOne_spread_le rng np_rng krng knp b a c ha hc⟩

/-! ## Stored band vs stored (rounded) center (C4) -/

theorem arkit_band_classify (gt_depth lidar_depth : DepthMap)
    (intr : Option Intrinsics) (vid ts : String) (c : BandCounts)
    (s : GroundTruthSample)
    (hacc : (arkitProcessFrame gt_depth lidar_depth intr vid ts c).1 = some s) :
    ∃ v, sample_center_patch gt_depth 2 = some v
      ∧ classify_distance v = some s.distance_band
      ∧ s.ground_truth_center_m = round4 v := by
  unfold arkitProcessFrame at hacc
  revert hacc
  cases hsc : sample_center_patch gt_depth 2 with
  | none => intro hacc; cases hacc
  | some v =>
    dsimp only
    split_ifs with hlt
    · intro hacc; cases hacc
    · cases hcl : classify_distance v with
      | none => intro hacc; cases hacc
      | some band =>
        dsimp only
        split_ifs with hq
        · intro hacc; cases hacc
        · intro hacc
          injection hacc with e
          subst e
          exact ⟨v, rfl, hcl, rfl⟩

theorem diode_band_classify (depth : DepthMap) (env sc sn fs : String)
    (c : BandCounts) (s : GroundTruthSample)
    (hacc : (diodeProcessFrame depth env sc sn fs c).1 = some s) :
    ∃ v, sample_center_patch depth 2 = some v
      ∧ classify_distance v = some s.distance_band
      ∧ s.ground_truth_center_m = round4 v := by
  unfold diodeProcessFrame at hacc
  revert hacc
  cases hsc : sample_center_patch depth 2 with
  | none => intro hacc; cases hacc
  | some v =>
    dsimp only
    split_ifs with hlt
    · intro hacc; cases hacc
    · cases hcl : classify_distance v with
      | none => intro hacc; cases hacc
      | some band =>
        dsimp only
        split_ifs with hq
        · intro hacc; cases hacc
        · intro hacc
          injection hacc with e
          subst e
          exact ⟨v, rfl, hcl, rfl⟩

theorem synArk_band_classify (rng np_rng : Rng) (st : SynState) (d : ℚ)
    (s : GroundTruthSample)
    (h : (synArkStep rng np_rng st d).samples = st.samples ++ [s]) :
    classify_distance d = some s.distance_band
      ∧ s.ground_truth_center_m = round4 d := by
  unfold synArkStep at h
  revert h
  cases hcl : classify_distance d with
  | none => intro h; simp at h
  | some band =>
    dsimp only
    split_ifs with hq h3 h5
    · intro h; simp at h
    all_goals
      intro h
      have e : s = _ := (List.cons.inj (List.append_cancel_left h.symm)).1
      subst e
      exact ⟨rfl, rfl⟩

theorem synDiodeIndoor_band_classify (rng : Rng) (st : SynState) (d : ℚ)
    (s : GroundTruthSample)
    (h : (synDiodeIndoorStep rng st d).samples = st.samples ++ [s]) :
    classify_distance d = some s.distance_band
      ∧ s.ground_truth_center_m = round4 d := by
  unfold synDiodeIndoorStep at h
  revert h
  cases hcl : classify_distance d with
  | none => intro h; simp at h
  | some band =>
    dsimp only
    split_ifs with hq
    · intro h; simp at h
    · intro h
      have e : s = _ := (List.cons.inj (List.append_cancel_left h.symm)).1
      subst e
      exact ⟨rfl, rfl⟩

theorem synDiodeOutdoor_band_classify (rng : Rng) (st : SynState) (d : ℚ)
    (s : GroundTruthSample)
    (h : (synDiodeOutdoorStep rng st d).samples = st.samples ++ [s]) :
    classify_distance d = some s.distance_band
      ∧ s.ground_truth_center_m = round4 d := by
  unfold synDiodeOutdoorStep at h
  revert h
  cases hcl : classify_distance d with
  | none => intro h; simp at h
  | some band =>
    dsimp only
    split_ifs with hq
    · intro h; simp at h
    · intro h
      have e : s = _ := (List.cons.inj (List.append_cancel_left h.symm)).1
      subst e
      exact ⟨rfl, rfl⟩

theorem fillOne_band (rng np_rng : Rng) (krng knp : ℕ) (b : Band) :
    (fillOne rng np_rng krng knp b).1.distance_band = b := rfl

/-- The 7×7 map whose pixels are all the valid value 2.99997 m: its center
median 2.99997 classifies as `close` but rounds (to 4 decimals) to 3.0,
which classifies as `near_mid`. -/
def cexMap : DepthMap := ⟨7, 7, fun _ _ => some (299997/100000)⟩

section RoundingCounterexample

attribute [local semireducible] Rat.add Rat.mul Rat.sub Rat.inv Rat.ofScientific

/-- Counterexample to C4 as stated: the arkitscenes adapter emits a sample
whose stored `distance_band` (`close`) differs from
`classify(ground_truth_center_m)` (`near_mid`), because the stored center is
rounded to 3.0 after classification. -/
theorem C4_counterexample :
    (∃ s, (arkitProcessFrame cexMap cexMap none "00001" "1000.001" zeroCounts).1
        = some s
      ∧ s.ground_truth_center_m = 3
      ∧ s.distance_band = Band.close)
    ∧ classify_distance 3 = some Band.near_mid
    ∧ Band.near_mid ≠ Band.close := by
  refine ⟨⟨{ dataset := "arkitscenes"
             frame_id := "arkitscenes_00001_1000.001"
             ground_truth_center_m := 3
             lidar_center_m := some 3
             ground_truth_p25_m := none
             ground_truth_p75_m := none
             intrinsics := none
             image_width := 1920
             image_height := 1440
             scene_type := "indoor"
             distance_band := Band.close }, by decide, by decide, by decide⟩,
    by decide, by decide⟩

end RoundingCounterexample

/-- C4 (amended): for every emitted sample, the stored `distance_band` equals
`classify` of the pre-rounding center distance used at admission (the
quota-fill pass stamps the band being filled), and `ground_truth_center_m`
stores the 4-decimal rounding of that distance; `classify` of the stored
rounded center can therefore land in the adjacent band (see the
counterexample). -/
theorem C4_band_matches_unrounded_center :
    (∀ (gt_depth lidar_depth : DepthMap) (intr : Option Intrinsics)
        (vid ts : String) (c : BandCounts) (s : GroundTruthSample),
      (arkitProcessFrame gt_depth lidar_depth intr vid ts c).1 = some s →
      ∃ v, sample_center_patch gt_depth 2 = some v
        ∧ classify_distance v = some s.distance_band
        ∧ s.ground_truth_center_m = round4 v)
    ∧ (∀ (depth : DepthMap) (env sc sn fs : String) (c : BandCounts)
        (s : GroundTruthSample),
      (diodeProcessFrame depth env sc sn fs c).1 = some s →
      ∃ v, sample_center_patch depth 2 = some v
        ∧ classify_distance v = some s.distance_band
        ∧ s.ground_truth_center_m = round4 v)
    ∧ (∀ (rng np_rng : Rng) (st : SynState) (d : ℚ) (s : GroundTruthSample),
      (synArkStep rng np_rng st d).samples = st.samples ++ [s] →
      classify_distance d = some s.distance_band
        ∧ s.ground_truth_center_m = round4 d)
    ∧ (∀ (rng : Rng) (st : SynState) (d : ℚ) (s : GroundTruthSample),
      (synDiodeIndoorStep rng st d).samples = st.samples ++ [s] →
      classify_distance d = some s.distance_band
        ∧ s.ground_truth_center_m = round4 d)
    ∧ (∀ (rng : Rng) (st : SynState) (d : ℚ) (s : GroundTruthSample),
      (synDiodeOutdoorStep rng st d).samples = st.samples ++ [s] →
      classify_distance d = some s.distance_band
        ∧ s.ground_truth_center_m = round4 d)
    ∧ (∀ (rng np_rng : Rng) (krng knp : ℕ) (b : Band),
      (fillOne rng np_rng krng knp b).1.distance_band = b) :=
  ⟨arkit_band_classify, diode_band_classify, synArk_band_classify,
   synDiodeIndoor_band_classify, synDiodeOutdoor_band_classify, fillOne_band⟩

/-! ## Synthetic completeness (C5) -/

/-- Number of samples of band `b` in a list. -/
def countBand (b : Band) (l : List GroundTruthSample) : ℕ :=
  l.countP fun s => decide (s.distance_band = b)

/-- The quota bookkeeping invariant: `counts` agrees with the actual per-band
sample counts, and no band exceeds its target. -/
def QuotaInv (samples : List GroundTruthSample) (counts : BandCounts) : Prop :=
  (∀ b, countBand b samples = counts b) ∧ (∀ b, counts b ≤ BAND_TARGETS b)

theorem countBand_append_single (b : Band) (l : List GroundTruthSample)
    (s : GroundTruthSample) :
    countBand b (l ++ [s]) = countBand b l + (if s.distance_band = b then 1 else 0) := by
  rw [countBand, countBand, List.countP_append]
  simp [List.countP_cons]

theorem countBand_bump (samples : List GroundTruthSample) (counts : BandCounts)
    (hc : ∀ b, countBand b samples = counts b) (s : GroundTruthSample) :
    ∀ b, countBand b (samples ++ [s]) = bump counts s.distance_band b := by
  intro b
  rw [countBand_append_single, hc, bump]
  by_cases e : s.distance_band = b
  · rw [if_pos e, if_pos e.symm]
  · rw [if_neg e, if_neg (fun h => e h.symm)]
    omega

theorem synArkStep_inv (rng np_rng : Rng) (st : SynState) (d : ℚ)
    (h : QuotaInv st.samples st.counts) :
    QuotaInv (synArkStep rng np_rng st d).samples (synArkStep rng np_rng st d).counts := by
  obtain ⟨hc, hle⟩ := h
  unfold synArkStep
  cases hcl : classify_distance d with
  | none => exact ⟨hc, hle⟩
  | some band =>
    dsimp only
    split_ifs with hq h3 h5
    · exact ⟨hc, hle⟩
    all_goals exact ⟨countBand_bump st.samples st.counts hc _, bump_le (by omega) hle⟩

theorem synDiodeIndoorStep_inv (rng : Rng) (st : SynState) (d : ℚ)
    (h : QuotaInv st.samples st.counts) :
    QuotaInv (synDiodeIndoorStep rng st d).samples (synDiodeIndoorStep rng st d).counts := by
  obtain ⟨hc, hle⟩ := h
  unfold synDiodeIndoorStep
  cases hcl : classify_distance d with
  | none => exact ⟨hc, hle⟩
  | some band =>
    dsimp only
    split_ifs with hq
    · exact ⟨hc, hle⟩
    · exact ⟨countBand_bump st.samples st.counts hc _, bump_le (by omega) hle⟩

theorem synDiodeOutdoorStep_inv (rng : Rng) (st : SynState) (d : ℚ)
    (h : QuotaInv st.samples st.counts) :
    QuotaInv (synDiodeOutdoorStep rng st d).samples (synDiodeOutdoorStep rng st d).counts := by
  obtain ⟨hc, hle⟩ := h
  unfold synDiodeOutdoorStep
  cases hcl : classify_distance d with
  | none => exact ⟨hc, hle⟩
  | some band =>
    dsimp only
    split_ifs with hq
    · exact ⟨hc, hle⟩
    · exact ⟨countBand_bump st.samples st.counts hc _, bump_le (by omega) hle⟩

theorem foldl_synArk_inv (rng np_rng : Rng) (l : List ℚ) :
    ∀ (st : SynState), QuotaInv st.samples st.counts →
      QuotaInv ((l.foldl (synArkStep rng np_rng)) st).samples
        ((l.foldl (synArkStep rng np_rng)) st).counts := by
  induction l with
  | nil => intro st h; exact h
  | cons d ds ih =>
    intro st h
    exact ih (synArkStep rng np_rng st d) (synArkStep_inv rng np_rng st d h)

theorem foldl_synDiodeIndoor_inv (rng : Rng) (l : List ℚ) :
    ∀ (st : SynState), QuotaInv st.samples st.counts →
      QuotaInv ((l.foldl (synDiodeIndoorStep rng)) st).samples
        ((l.foldl (synDiodeIndoorStep rng)) st).counts := by
  induction l with
  | nil => intro st h; exact h
  | cons d ds ih =>
    intro st h
    exact ih (synDiodeIndoorStep rng st d) (synDiodeIndoorStep_inv rng st d h)

theorem foldl_synDiodeOutdoor_inv (rng : Rng) (l : List ℚ) :
    ∀ (st : SynState), QuotaInv st.samples st.counts →
      QuotaInv ((l.foldl (synDiodeOutdoorStep rng)) st).samples
        ((l.foldl (synDiodeOutdoorStep rng)) st).counts := by
  induction l with
  | nil => intro st h; exact h
  | cons d ds ih =>
    intro st h
    exact ih (synDiodeOutdoorStep rng st d) (synDiodeOutdoorStep_inv rng st d h)

theorem fillBand_count (rng np_rng : Rng) (b : Band) :
    ∀ (n krng knp : ℕ) (b' : Band),
      countBand b' (fillBand rng np_rng b n krng knp).1 =
        if b' = b then n else 0 := by
  intro n
  induction n with
  | zero => intro krng knp b'; simp [fillBand, countBand]
  | succ m ih =>
    intro krng knp b'
    rw [fillBand]
    dsimp only
    rw [countBand, List.countP_cons]
    have h1 : (fillOne rng np_rng krng knp b).1.distance_band = b := fillOne_band _ _ _ _ _
    rw [← countBand]
    rw [ih]
    by_cases e : b' = b
    · rw [if_pos e, if_pos e]
      have : decide ((fillOne rng np_rng krng knp b).1.distance_band = b') = true := by
        rw [h1, e]
        simp
      rw [this]
      simp
    · rw [if_neg e, if_neg e]
      have : decide ((fillOne rng np_rng krng knp b).1.distance_band = b') = false := by
        rw [h1]
        simpa using fun h => e h.symm
      rw [this]
      simp

theorem countBand_append (b : Band) (l1 l2 : List GroundTruthSample) :
    countBand b (l1 ++ l2) = countBand b l1 + countBand b l2 := by
  rw [countBand, countBand, countBand, List.countP_append]

theorem all_bands_mem (b : Band) : b ∈ DISTANCE_BANDS := by
  cases b <;> simp [DISTANCE_BANDS]

theorem fillLoop_spec (rng np_rng : Rng) :
    ∀ (bs : List Band) (st : SynState),
      QuotaInv st.samples st.counts →
      (∀ b, countBand b (fillLoop rng np_rng bs st).samples =
        if b ∈ bs then BAND_TARGETS b else st.counts b) := by
  intro bs
  induction bs with
  | nil =>
    intro st h b
    simp only [fillLoop, List.not_mem_nil, if_false]
    exact h.1 b
  | cons b0 bs ih =>
    intro st h b
    rw [fillLoop]
    have hinv : QuotaInv
        (st.samples ++ (fillBand rng np_rng b0 (BAND_TARGETS b0 - st.counts b0)
          st.krng st.knp).1)
        (fun b' => if b' = b0 then st.counts b' + (BAND_TARGETS b0 - st.counts b0)
          else st.counts b') := by
      constructor
      · intro b'
        dsimp only
        rw [countBand_append, h.1 b',
          fillBand_count rng np_rng b0 (BAND_TARGETS b0 - st.counts b0) st.krng st.knp b']
        by_cases e : b' = b0
        · rw [if_pos e, if_pos e]
        · rw [if_neg e, if_neg e]
          omega
      · intro b'
        dsimp only
        by_cases e : b' = b0
        · rw [if_pos e, e]
          have := h.2 b0
          omega
        · rw [if_neg e]
          exact h.2 b'
    refine Eq.trans (ih ⟨st.samples
        ++ (fillBand rng np_rng b0 (BAND_TARGETS b0 - st.counts b0) st.krng st.knp).1,
      fun b' => if b' = b0 then st.counts b' + (BAND_TARGETS b0 - st.counts b0)
        else st.counts b',
      (fillBand rng np_rng b0 (BAND_TARGETS b0 - st.counts b0) st.krng st.knp).2.1,
      (fillBand rng np_rng b0 (BAND_TARGETS b0 - st.counts b0) st.krng st.knp).2.2⟩
      hinv b) ?_
    dsimp only
    by_cases hb : b ∈ bs
    · rw [if_pos hb, if_pos (List.mem_cons_of_mem b0 hb)]
    · rw [if_neg hb]
      by_cases e : b = b0
      · rw [if_pos e, if_pos (e ▸ List.mem_cons_self b0 bs)]
        have := h.2 b0
        subst e
        omega
      · rw [if_neg e, if_neg (by simp [List.mem_cons, e, hb])]

theorem length_eq_sum_countBand (l : List GroundTruthSample) :
    l.length = countBand .close l + countBand .near_mid l + countBand .mid l
      + countBand .far_mid l + countBand .far l + countBand .long l := by
  induction l with
  | nil => simp [countBand]
  | cons s t ih =>
    cases hb : s.distance_band <;>
      simp only [List.length_cons, countBand, List.countP_cons, hb] <;>
      simp only [countBand] at ih <;>
      simp <;> omega

theorem countBand_congr_perm {l l' : List GroundTruthSample}
    (h : List.Perm l l') (b : Band) : countBand b l = countBand b l' :=
  h.countP_eq _

theorem fill_then_shuffle_spec (rng np_rng : Rng) (k : ℕ) (st : SynState)
    (h : QuotaInv st.samples st.counts) :
    (∀ b, countBand b
        (shuffleModel rng k (fillLoop rng np_rng DISTANCE_BANDS st).samples)
      = BAND_TARGETS b)
    ∧ (shuffleModel rng k
        (fillLoop rng np_rng DISTANCE_BANDS st).samples).length = 10000 := by
  have hfill : ∀ b, countBand b (fillLoop rng np_rng DISTANCE_BANDS st).samples
      = BAND_TARGETS b := by
    intro b
    rw [fillLoop_spec rng np_rng DISTANCE_BANDS st h b, if_pos (all_bands_mem b)]
  constructor
  · intro b
    rw [countBand_congr_perm (shuffleModel_perm rng k _) b]
    exact hfill b
  · rw [(shuffleModel_perm rng k _).length_eq, length_eq_sum_countBand,
      hfill, hfill, hfill, hfill, hfill, hfill]
    norm_num [BAND_TARGETS]

/-- C5: run alone, the synthetic generator terminates (it is a total
function; the fill loop's variant is the remaining deficit) with every
band's count exactly at its target, hence exactly
`sum(BAND_TARGETS.values()) = 10000` samples in total, for every possible
pair of random streams. -/
theorem synArkPass_inv (rng np_rng : Rng) :
    QuotaInv (synArkPass rng np_rng).samples (synArkPass rng np_rng).counts := by
  rw [synArkPass]
  exact foldl_synArk_inv rng np_rng _ _
    ⟨fun b' => by simp [countBand, zeroCounts], fun b' => Nat.zero_le _⟩

theorem synDiodeIndoorPass_inv (rng np_rng : Rng) (st : SynState)
    (h : QuotaInv st.samples st.counts) :
    QuotaInv (synDiodeIndoorPass rng np_rng st).samples
      (synDiodeIndoorPass rng np_rng st).counts := by
  rw [synDiodeIndoorPass]
  exact foldl_synDiodeIndoor_inv rng _ _ h

theorem synDiodeOutdoorPass_inv (rng np_rng : Rng) (st : SynState)
    (h : QuotaInv st.samples st.counts) :
    QuotaInv (synDiodeOutdoorPass rng np_rng st).samples
      (synDiodeOutdoorPass rng np_rng st).counts := by
  rw [synDiodeOutdoorPass]
  exact foldl_synDiodeOutdoor_inv rng _ _ h

theorem C5_synthetic_generator_exact_quotas :
    ∀ (rng np_rng : Rng) (b : Band),
      countBand b (generate_synthetic_manifest rng np_rng) = BAND_TARGETS b
      ∧ (generate_synthetic_manifest rng np_rng).length = 10000 := by
  intro rng np_rng b
  have hinv : QuotaInv
      (synDiodeOutdoorPass rng np_rng
        (synDiodeIndoorPass rng np_rng (synArkPass rng np_rng))).samples
      (synDiodeOutdoorPass rng np_rng
        (synDiodeIndoorPass rng np_rng (synArkPass rng np_rng))).counts :=
    synDiodeOutdoorPass_inv rng np_rng _
      (synDiodeIndoorPass_inv rng np_rng _ (synArkPass_inv rng np_rng))
  rw [generate_synthetic_manifest]
  exact ⟨(fill_then_shuffle_spec rng np_rng _ _ hinv).1 b,
    (fill_then_shuffle_spec rng np_rng _ _ hinv).2⟩

/-! ## Seed determinism (C8) -/

/-- Modelled from the spec: `random.Random(seed)` — a deterministic raw
stream derived from the integer seed by a fixed mixing function (the
Mersenne Twister itself is library code; only its determinism in the seed
matters). -/
def mkRandomRng (seed : ℤ) : Rng :=
  ⟨fun k => (((seed + (k : ℤ)) * 2654435761 % 4294967296 : ℤ) : ℚ) / 4294967296⟩

/-- Modelled from the spec: `np.random.RandomState(seed)` — a second
deterministic raw stream derived from the same integer seed. -/
def mkNpRng (seed : ℤ) : Rng :=
  ⟨fun k => (((seed + (k : ℤ)) * 1103515245 + 12345 % 2147483648 : ℤ) : ℚ) / 2147483648⟩

/-- `generate_synthetic_manifest(output_dir, seed)`: both generators are
seeded from the single integer `seed` (lines 448-449); the output directory
only receives prints. -/
def synthetic_manifest_of_seed (seed : ℤ) : List GroundTruthSample :=
  generate_synthetic_manifest (mkRandomRng seed) (mkNpRng seed)

/-- C8: the synthetic generator is a deterministic function of its integer
seed — two runs with equal seeds produce identical sample lists (same field
values, same order, including the final shuffle). -/
theorem C8_seed_determinism :
    ∀ s t : ℤ, s = t →
      synthetic_manifest_of_seed s = synthetic_manifest_of_seed t := by
  intro s t h
  rw [h]

/-- Witness for C8 at the default seed 42. -/
theorem C8_seed_determinism_witness :
    synthetic_manifest_of_seed 42 = synthetic_manifest_of_seed 42 :=
  C8_seed_determinism 42 42 rfl

/-! ## Frame-id uniqueness (C9) -/

theorem synDiodeIndoorStep_extend (rng : Rng) (st : SynState) (d : ℚ) :
    ∃ tl, (synDiodeIndoorStep rng st d).samples = st.samples ++ tl := by
  unfold synDiodeIndoorStep
  cases classify_distance d with
  | none => exact ⟨[], by simp⟩
  | some band =>
    dsimp only
    split_ifs
    · exact ⟨[], by simp⟩
    · exact ⟨_, rfl⟩

theorem synDiodeOutdoorStep_extend (rng : Rng) (st : SynState) (d : ℚ) :
    ∃ tl, (synDiodeOutdoorStep rng st d).samples = st.samples ++ tl := by
  unfold synDiodeOutdoorStep
  cases classify_distance d with
  | none => exact ⟨[], by simp⟩
  | some band =>
    dsimp only
    split_ifs
    · exact ⟨[], by simp⟩
    · exact ⟨_, rfl⟩

theorem foldl_extend (f : SynState → ℚ → SynState)
    (hf : ∀ st d, ∃ tl, (f st d).samples = st.samples ++ tl) (l : List ℚ) :
    ∀ st, ∃ tl, (List.foldl f st l).samples = st.samples ++ tl := by
  induction l with
  | nil => intro st; exact ⟨[], by simp⟩
  | cons d ds ih =>
    intro st
    obtain ⟨t1, h1⟩ := hf st d
    obtain ⟨t2, h2⟩ := ih (f st d)
    exact ⟨t1 ++ t2, by rw [List.foldl_cons, h2, h1, List.append_assoc]⟩

theorem fillLoop_extend (rng np_rng : Rng) :
    ∀ (bs : List Band) (st : SynState),
      ∃ tl, (fillLoop rng np_rng bs st).samples = st.samples ++ tl := by
  intro bs
  induction bs with
  | nil => intro st; exact ⟨[], by simp [fillLoop]⟩
  | cons b bs ih =>
    intro st
    rw [fillLoop]
    obtain ⟨t2, h2⟩ := ih ⟨st.samples
        ++ (fillBand rng np_rng b (BAND_TARGETS b - st.counts b) st.krng st.knp).1,
      fun b' => if b' = b then st.counts b' + (BAND_TARGETS b - st.counts b) else st.counts b',
      (fillBand rng np_rng b (BAND_TARGETS b - st.counts b) st.krng st.knp).2.1,
      (fillBand rng np_rng b (BAND_TARGETS b - st.counts b) st.krng st.knp).2.2⟩
    refine ⟨(fillBand rng np_rng b (BAND_TARGETS b - st.counts b) st.krng st.knp).1
      ++ t2, ?_⟩
    rw [h2]
    dsimp only
    rw [List.append_assoc]

theorem synDiodeIndoorPass_extend (rng np_rng : Rng) (st : SynState) :
    ∃ tl, (synDiodeIndoorPass rng np_rng st).samples = st.samples ++ tl := by
  rw [synDiodeIndoorPass]
  exact foldl_extend (synDiodeIndoorStep rng) (synDiodeIndoorStep_extend rng)
    ((lognormalDraws np_rng st.knp 20000).filter
      fun d => decide (1/2 ≤ d) && decide (d < 15))
    { st with knp := st.knp + 20000 }

theorem synDiodeOutdoorPass_extend (rng np_rng : Rng) (st : SynState) :
    ∃ tl, (synDiodeOutdoorPass rng np_rng st).samples = st.samples ++ tl := by
  rw [synDiodeOutdoorPass]
  exact foldl_extend (synDiodeOutdoorStep rng) (synDiodeOutdoorStep_extend rng)
    ((lognormalDraws np_rng st.knp 50000).filter
      fun d => decide (5 ≤ d) && decide (d < 350))
    { st with knp := st.knp + 50000 }

/-- The pre-shuffle sample list extends the first pass's samples: the later
passes only append. -/
theorem gen_pre_shuffle_extend (rng np_rng : Rng) :
    ∃ tl, (fillLoop rng np_rng DISTANCE_BANDS
      (synDiodeOutdoorPass rng np_rng
        (synDiodeIndoorPass rng np_rng (synArkPass rng np_rng)))).samples
      = (synArkPass rng np_rng).samples ++ tl := by
  obtain ⟨t1, h1⟩ := synDiodeIndoorPass_extend rng np_rng (synArkPass rng np_rng)
  obtain ⟨t2, h2⟩ := synDiodeOutdoorPass_extend rng np_rng
    (synDiodeIndoorPass rng np_rng (synArkPass rng np_rng))
  obtain ⟨t3, h3⟩ := fillLoop_extend rng np_rng DISTANCE_BANDS
    (synDiodeOutdoorPass rng np_rng
      (synDiodeIndoorPass rng np_rng (synArkPass rng np_rng)))
  refine ⟨t1 ++ t2 ++ t3, ?_⟩
  rw [h3, h2, h1]
  simp [List.append_assoc]

/-- Counterexample streams: the `rng` stream is constantly 0, the `np_rng`
stream yields 1 and 1.2 as its first two raw draws and 0 afterwards. -/
def cexRng : Rng := ⟨fun _ => 0⟩

def cexNpRng : Rng := ⟨fun k => if k = 0 then 1 else if k = 1 then 6/5 else 0⟩

section FrameIdCounterexample

attribute [local semireducible] Rat.add Rat.mul Rat.sub Rat.inv Rat.ofScientific

theorem cex_arkD :
    ((lognormalDraws cexNpRng 0 20000).filter
      fun d => decide (1/2 ≤ d) && decide (d < 10)) = [1, 6/5] := by
  rw [lognormalDraws, show (20000 : ℕ) = 2 + 19998 from rfl, List.range_add,
    List.map_append, List.filter_append, List.map_map, List.filter_map,
    List.filter_map]
  have hnil : ((List.range 19998).filter
      ((fun d => decide (1/2 ≤ d) && decide (d < 10))
        ∘ ((fun i => |cexNpRng.raw (0 + i)|) ∘ (2 + ·)))) = [] := by
    rw [List.filter_eq_nil_iff]
    intro a ha
    have e1 : (0:ℕ) + (2 + a) ≠ 0 := by omega
    have e2 : (0:ℕ) + (2 + a) ≠ 1 := by omega
    simp only [Function.comp_apply, cexNpRng, if_neg e1, if_neg e2]
    norm_num
  rw [hnil]
  simp only [List.map_nil, List.append_nil]
  decide

theorem cex_arkPass :
    ∃ s1 s2 : GroundTruthSample,
      (synArkPass cexRng cexNpRng).samples = [s1, s2]
      ∧ s1.frame_id = s2.frame_id ∧ s1 ≠ s2 := by
  rw [synArkPass, cex_arkD]
  refine ⟨_, _, rfl, by decide, by decide⟩

end FrameIdCounterexample

/-- Counterexample to C9 as stated: for these streams the synthetic
generator's output contains two different samples (their centers are 1.0 m
and 1.2 m) with the same `frame_id` — the pseudo-randomly drawn scene and
frame numbers collide and nothing deduplicates them. -/
theorem C9_counterexample :
    ∃ s1 s2 : GroundTruthSample,
      s1 ∈ generate_synthetic_manifest cexRng cexNpRng
      ∧ s2 ∈ generate_synthetic_manifest cexRng cexNpRng
      ∧ s1 ≠ s2 ∧ s1.frame_id = s2.frame_id := by
  obtain ⟨s1, s2, hsam, hfid, hne⟩ := cex_arkPass
  obtain ⟨tl, hext⟩ := gen_pre_shuffle_extend cexRng cexNpRng
  have hmem1 : s1 ∈ (fillLoop cexRng cexNpRng DISTANCE_BANDS
      (synDiodeOutdoorPass cexRng cexNpRng
        (synDiodeIndoorPass cexRng cexNpRng (synArkPass cexRng cexNpRng)))).samples := by
    rw [hext, hsam]
    simp
  have hmem2 : s2 ∈ (fillLoop cexRng cexNpRng DISTANCE_BANDS
      (synDiodeOutdoorPass cexRng cexNpRng
        (synDiodeIndoorPass cexRng cexNpRng (synArkPass cexRng cexNpRng)))).samples := by
    rw [hext, hsam]
    simp
  refine ⟨s1, s2, ?_, ?_, hne, hfid⟩ <;>
  · rw [generate_synthetic_manifest]
    first
      | exact (shuffleModel_perm cexRng _ _).mem_iff.mpr hmem1
      | exact (shuffleModel_perm cexRng _ _).mem_iff.mpr hmem2

theorem digitChar_inj :
    ∀ d1 : ℕ, d1 < 10 → ∀ d2 : ℕ, d2 < 10 →
      Char.ofNat (48 + d1) = Char.ofNat (48 + d2) → d1 = d2 := by
  decide

theorem pad5_inj {m n : ℕ} (hm : m < 100000) (hn : n < 100000)
    (h : pad5 m = pad5 n) : m = n := by
  rw [pad5, pad5] at h
  injection h with h
  injection h with c1 h
  injection h with c2 h
  injection h with c3 h
  injection h with c4 h
  injection h with c5 h
  have d1 := digitChar_inj _ (Nat.mod_lt _ (by norm_num)) _ (Nat.mod_lt _ (by norm_num)) c1
  have d2 := digitChar_inj _ (Nat.mod_lt _ (by norm_num)) _ (Nat.mod_lt _ (by norm_num)) c2
  have d3 := digitChar_inj _ (Nat.mod_lt _ (by norm_num)) _ (Nat.mod_lt _ (by norm_num)) c3
  have d4 := digitChar_inj _ (Nat.mod_lt _ (by norm_num)) _ (Nat.mod_lt _ (by norm_num)) c4
  have d5 := digitChar_inj _ (Nat.mod_lt _ (by norm_num)) _ (Nat.mod_lt _ (by norm_num)) c5
  omega

theorem pad10_inj {m n : ℕ} (hm : m < 10000000000) (hn : n < 10000000000)
    (h : pad10 m = pad10 n) : m = n := by
  rw [pad10, pad10] at h
  injection h with h
  injection h with c1 h
  injection h with c2 h
  injection h with c3 h
  injection h with c4 h
  injection h with c5 h
  injection h with c6 h
  injection h with c7 h
  injection h with c8 h
  injection h with c9 h
  injection h with c10 h
  have d1 := digitChar_inj _ (Nat.mod_lt _ (by norm_num)) _ (Nat.mod_lt _ (by norm_num)) c1
  have d2 := digitChar_inj _ (Nat.mod_lt _ (by norm_num)) _ (Nat.mod_lt _ (by norm_num)) c2
  have d3 := digitChar_inj _ (Nat.mod_lt _ (by norm_num)) _ (Nat.mod_lt _ (by norm_num)) c3
  have d4 := digitChar_inj _ (Nat.mod_lt _ (by norm_num)) _ (Nat.mod_lt _ (by norm_num)) c4
  have d5 := digitChar_inj _ (Nat.mod_lt _ (by norm_num)) _ (Nat.mod_lt _ (by norm_num)) c5
  have d6 := digitChar_inj _ (Nat.mod_lt _ (by norm_num)) _ (Nat.mod_lt _ (by norm_num)) c6
  have d7 := digitChar_inj _ (Nat.mod_lt _ (by norm_num)) _ (Nat.mod_lt _ (by norm_num)) c7
  have d8 := digitChar_inj _ (Nat.mod_lt _ (by norm_num)) _ (Nat.mod_lt _ (by norm_num)) c8
  have d9 := digitChar_inj _ (Nat.mod_lt _ (by norm_num)) _ (Nat.mod_lt _ (by norm_num)) c9
  have d10 := digitChar_inj _ (Nat.mod_lt _ (by norm_num)) _ (Nat.mod_lt _ (by norm_num)) c10
  omega

theorem pad5_data_length (n : ℕ) : (pad5 n).data.length = 5 := rfl

theorem pad10_data_length (n : ℕ) : (pad10 n).data.length = 10 := rfl

theorem synArkFrameId_inj {sc f sc' f' : ℕ}
    (h1 : sc < 100000) (h2 : f < 10000000000)
    (h3 : sc' < 100000) (h4 : f' < 10000000000)
    (h : synArkFrameId sc f = synArkFrameId sc' f') : sc = sc' ∧ f = f' := by
  rw [synArkFrameId, synArkFrameId] at h
  have h' := congrArg String.data h
  simp only [String.data_append] at h'
  obtain ⟨g1, gf⟩ := List.append_inj' h'
    (by rw [pad10_data_length, pad10_data_length])
  obtain ⟨g2, -⟩ := List.append_inj' g1 rfl
  obtain ⟨-, gsc⟩ := List.append_inj g2 rfl
  exact ⟨pad5_inj h1 h3 (String.ext gsc), pad10_inj h2 h4 (String.ext gf)⟩

theorem synDiodeFrameId_inj (env : String) {a b c a' b' c' : ℕ}
    (ha : a < 100000) (hb : b < 100000) (hc : c < 100000)
    (ha' : a' < 100000) (hb' : b' < 100000) (hc' : c' < 100000)
    (h : synDiodeFrameId env a b c = synDiodeFrameId env a' b' c') :
    a = a' ∧ b = b' ∧ c = c' := by
  rw [synDiodeFrameId, synDiodeFrameId] at h
  have h' := congrArg String.data h
  simp only [String.data_append] at h'
  obtain ⟨g1, g3⟩ := List.append_inj' h'
    (by rw [pad5_data_length, pad5_data_length])
  obtain ⟨g2, -⟩ := List.append_inj' g1 rfl
  obtain ⟨g4, g5⟩ := List.append_inj' g2
    (by rw [pad5_data_length, pad5_data_length])
  obtain ⟨g6, -⟩ := List.append_inj' g4 rfl
  obtain ⟨-, g7⟩ := List.append_inj' g6
    (by rw [pad5_data_length, pad5_data_length])
  exact ⟨pad5_inj ha ha' (String.ext g7), pad5_inj hb hb' (String.ext g5),
    pad5_inj hc hc' (String.ext g3)⟩

theorem fillFrameId_inj (dataset env : String) {a b c a' b' c' : ℕ}
    (ha : a < 100000) (hb : b < 100000) (hc : c < 100000)
    (ha' : a' < 100000) (hb' : b' < 100000) (hc' : c' < 100000)
    (h : fillFrameId dataset env a b c = fillFrameId dataset env a' b' c') :
    a = a' ∧ b = b' ∧ c = c' := by
  rw [fillFrameId, fillFrameId] at h
  have h' := congrArg String.data h
  simp only [String.data_append] at h'
  obtain ⟨g1, g3⟩ := List.append_inj' h'
    (by rw [pad5_data_length, pad5_data_length])
  obtain ⟨g2, -⟩ := List.append_inj' g1 rfl
  obtain ⟨g4, g5⟩ := List.append_inj' g2
    (by rw [pad5_data_length, pad5_data_length])
  obtain ⟨g6, -⟩ := List.append_inj' g4 rfl
  obtain ⟨-, g7⟩ := List.append_inj' g6
    (by rw [pad5_data_length, pad5_data_length])
  exact ⟨pad5_inj ha ha' (String.ext g7), pad5_inj hb hb' (String.ext g5),
    pad5_inj hc hc' (String.ext g3)⟩

theorem randint_mem (g : Rng) (k : ℕ) {a b : ℕ} (h : a ≤ b) :
    a ≤ g.randint k a b ∧ g.randint k a b ≤ b := by
  rw [Rng.randint]
  refine ⟨Nat.le_add_right a _, ?_⟩
  have hu0 := g.unit_nonneg k
  have hu1 := g.unit_lt_one k
  have hab : (a : ℚ) ≤ (b : ℚ) := by exact_mod_cast h
  have hx : ((b : ℚ) - (a : ℚ) + 1) * g.unit k < (b : ℚ) - (a : ℚ) + 1 := by
    nlinarith
  have hfl : ⌊((b : ℚ) - (a : ℚ) + 1) * g.unit k⌋ < (b : ℤ) - (a : ℤ) + 1 := by
    apply Int.floor_lt.mpr
    push_cast
    linarith
  have h0 : (0:ℤ) ≤ ⌊((b : ℚ) - (a : ℚ) + 1) * g.unit k⌋ :=
    Int.floor_nonneg.mpr (mul_nonneg (by linarith) hu0)
  omega

/-- C9 (amended): each synthetic pass's frame id is a deterministic,
injective function of its drawn identifier numbers (and `randint` keeps
every drawn number inside its in-range five/ten-digit field), so two
samples of one pass share a `frame_id` only when all their identifier draws
coincide; since draws can repeat, global uniqueness of `frame_id` is not
guaranteed. -/
theorem C9_frame_id_deterministic_injective :
    (∀ sc f sc' f' : ℕ, sc < 100000 → f < 10000000000 →
      sc' < 100000 → f' < 10000000000 →
      synArkFrameId sc f = synArkFrameId sc' f' → sc = sc' ∧ f = f')
    ∧ (∀ (env : String) (a b c a' b' c' : ℕ),
      a < 100000 → b < 100000 → c < 100000 →
      a' < 100000 → b' < 100000 → c' < 100000 →
      synDiodeFrameId env a b c = synDiodeFrameId env a' b' c' →
        a = a' ∧ b = b' ∧ c = c')
    ∧ (∀ (dataset env : String) (a b c a' b' c' : ℕ),
      a < 100000 → b < 100000 → c < 100000 →
      a' < 100000 → b' < 100000 → c' < 100000 →
      fillFrameId dataset env a b c = fillFrameId dataset env a' b' c' →
        a = a' ∧ b = b' ∧ c = c')
    ∧ (∀ (g : Rng) (k a b : ℕ), a ≤ b →
      a ≤ g.randint k a b ∧ g.randint k a b ≤ b) :=
  ⟨fun sc f sc' f' h1 h2 h3 h4 h => synArkFrameId_inj h1 h2 h3 h4 h,
   fun env a b c a' b' c' ha hb hc ha' hb' hc' h =>
    synDiodeFrameId_inj env ha hb hc ha' hb' hc' h,
   fun dataset env a b c a' b' c' ha hb hc ha' hb' hc' h =>
    fillFrameId_inj dataset env ha hb hc ha' hb' hc' h,
   fun g k a b h => randint_mem g k h⟩
